import Mathlib

/-!
Shallow embedding of the virtualized thumbnail grid of `SearchView`
(the main thumbnail grid view of the repository).  Media IDs are modelled
as a base identifier plus a page number; thumbnail DOM nodes are modelled
as plain records; the DOM row tree is modelled as a list of row records.
JavaScript `Array.prototype.indexOf` (returning -1 on a miss) is modelled
by `jsIndexOf`, and `Array.prototype.slice` by `jsSlice`.
-/

namespace SearchViewModel

/-- A media ID: an opaque base identifier together with a page number.
`helpers.mediaId.encodeMediaId({type, id, page})` is modelled as building
a `MediaId` from the parsed base and the page, and
`helpers.mediaId.getMediaIdFirstPage` as setting the page to 0. -/
structure MediaId where
  base : Nat
  page : Nat
deriving DecidableEq, Repr

/-- One entry of `this.thumbs`: a materialized thumbnail node keyed by its
media ID, carrying the `data-nearby` flag (set by the IntersectionObserver)
and the `data-search-page` attribute. -/
structure ThumbEntry where
  mediaId : MediaId
  nearby : Bool
  searchPage : Int
deriving DecidableEq, Repr

/-- JavaScript `indexOf`: index of the first occurrence, or -1. -/
def jsIndexOf {α : Type} [DecidableEq α] (l : List α) (x : α) : Int :=
  match l with
  | [] => -1
  | y :: ys =>
    if y = x then 0
    else
      let r := jsIndexOf ys x
      if r = -1 then -1 else r + 1

/-- `indexOf` where the searched value may be `undefined` (JS `indexOf` of
`undefined` on a list of media IDs is -1). -/
def jsIndexOfOpt {α : Type} [DecidableEq α] (l : List α) (x : Option α) : Int :=
  match x with
  | some v => jsIndexOf l v
  | none => -1

/-- JavaScript `l.slice(a, b)` for the in-bounds, non-negative indices the
view uses (negative arguments are clamped to 0 here; all call sites pass
clamped non-negative indices). -/
def jsSlice {α : Type} (l : List α) (a b : Int) : List α :=
  ((l.drop a.toNat).take (b - a).toNat)

/-- The sizing style produced by `makeThumbnailSizingStyle`; a change in any
field forces a purge in `refreshImages` (the JSON-comparison check). -/
structure SizingStyle where
  columns : Nat
  padding : ℚ
  thumbWidth : ℚ
  thumbHeight : ℚ
  containerWidth : Nat
  desiredPixels : Nat
deriving DecidableEq, Repr

/-- `getLoadedMediaIds`: the first and last media IDs currently in
`this.thumbs` (`undefined` on an empty view). -/
def getLoadedMediaIds (thumbs : List ThumbEntry) : Option MediaId × Option MediaId :=
  ((thumbs.map (·.mediaId)).head?, (thumbs.map (·.mediaId)).getLast?)

/-- `getNearbyMediaIds` (without `all`): first and last media IDs whose
thumbs have the `nearby` dataset flag set. -/
def getNearbyMediaIds (thumbs : List ThumbEntry) : Option MediaId × Option MediaId :=
  let mediaIds := (thumbs.filter (·.nearby)).map (·.mediaId)
  (mediaIds.head?, mediaIds.getLast?)

/-- The `while(1)` growth loop at the end of `getMediaIdsToDisplay`:
expand `[s, e]` in both directions until the tile count covers the pixel
budget or the whole list.  The JS loop always terminates within
`allMediaIds.length` iterations (see `growRange_stop`); it is embedded with
that iteration count as fuel. -/
def growRange (len desiredPixels viewPixels : Nat) : Nat → Int → Int → Int × Int
  | 0, s, e => (s, e)
  | fuel + 1, s, e =>
    if (len : Int) ≤ e - s + 1 then (s, e)
    else if (viewPixels : Int) ≤ (e - s + 1) * (desiredPixels : Int) then (s, e)
    else
      let s' := if 0 < s then s - 1 else s
      let e' := if e + 1 < (len : Int) then e + 1 else e
      growRange len desiredPixels viewPixels fuel s' e'

/-- The stopping condition of the growth loop: the range covers the whole
list, or the tile count times the per-tile pixel budget reaches the target
view pixel area. -/
def stopCond (len desiredPixels viewPixels : Nat) (s e : Int) : Prop :=
  (len : Int) ≤ e - s + 1 ∨ (viewPixels : Int) ≤ (e - s + 1) * (desiredPixels : Int)

instance (len desiredPixels viewPixels : Nat) (s e : Int) :
    Decidable (stopCond len desiredPixels viewPixels s e) := by
  unfold stopCond; infer_instance

/-- The else-branch seed of `getMediaIdsToDisplay`: start from the span of
the already-loaded thumbs (or `[0,0]`), then add a forward chunk when the
last nearby thumb is the last loaded one and a backward chunk (larger on
iOS) when the first nearby thumb is the first loaded one. -/
def loadedSeed (ios : Bool) (thumbs : List ThumbEntry)
    (allMediaIds : List MediaId) : Int × Int :=
  let loaded := getLoadedMediaIds thumbs
  let firstLoadedMediaIdIdx := jsIndexOfOpt allMediaIds loaded.1
  let lastLoadedMediaIdIdx := jsIndexOfOpt allMediaIds loaded.2
  let base : Int × Int :=
    if firstLoadedMediaIdIdx ≠ -1 ∧ lastLoadedMediaIdIdx ≠ -1 then
      (firstLoadedMediaIdIdx, lastLoadedMediaIdIdx)
    else
      (0, 0)
  let chunkSizeForwards : Int := 25
  let nearby := getNearbyMediaIds thumbs
  let lastNearbyMediaIdIdx := jsIndexOfOpt allMediaIds nearby.2
  let e1 :=
    if lastNearbyMediaIdIdx ≠ -1 ∧ lastNearbyMediaIdIdx = lastLoadedMediaIdIdx then
      base.2 + chunkSizeForwards
    else base.2
  let chunkSizeBackwards : Int := if ios then 100 else 25
  let firstNearbyMediaIdIdx := jsIndexOfOpt allMediaIds nearby.1
  let s1 :=
    if firstNearbyMediaIdIdx ≠ -1 ∧ firstNearbyMediaIdIdx = firstLoadedMediaIdIdx then
      base.1 - chunkSizeBackwards
    else base.1
  (s1, e1)

/-- The pre-clamp seed of `getMediaIdsToDisplay`: a single-index range at
the target when a target is given, not yet loaded and present in the list;
otherwise the loaded-span seed. -/
def seedRange (ios : Bool) (thumbs : List ThumbEntry) (allMediaIds : List MediaId)
    (targetMediaId : Option MediaId) : Int × Int :=
  let targetMediaIdIdx := jsIndexOfOpt allMediaIds targetMediaId
  let targetNotLoaded : Bool :=
    match targetMediaId with
    | some t => (thumbs.find? (fun th => th.mediaId = t)).isNone
    | none => false
  if targetNotLoaded ∧ targetMediaIdIdx ≠ -1 then
    (targetMediaIdIdx, targetMediaIdIdx)
  else
    loadedSeed ios thumbs allMediaIds

/-- `getMediaIdsToDisplay`: choose the contiguous index range of
`allMediaIds` to materialize.  `scrollHeight` is
`this.scrollContainer.offsetHeight` and `ios` is `ppixiv.ios`. -/
def getMediaIdsToDisplay (sizing : SizingStyle) (scrollHeight : Nat) (ios : Bool)
    (thumbs : List ThumbEntry) (allMediaIds : List MediaId)
    (targetMediaId : Option MediaId) : Int × Int :=
  if allMediaIds.length = 0 then (0, 0)
  else
    let seed := seedRange ios thumbs allMediaIds targetMediaId
    let startIdx := max seed.1 0
    let endIdx := min seed.2 ((allMediaIds.length : Int) - 1)
    let endIdx' := max startIdx endIdx
    let viewPixels := sizing.containerWidth * scrollHeight * 2
    growRange allMediaIds.length sizing.desiredPixels viewPixels
      allMediaIds.length startIdx endIdx'

/-- The inputs of expansion flattening: `isMediaIdExpanded` (including the
user's explicit toggles and the default) and the `pageCount` of the cached
media info (`none` when `getMediaInfoSync` returns null). -/
structure ExpansionEnv where
  isExpanded : MediaId → Bool
  pageCount : MediaId → Option Nat

/-- `this.dataSource.idList`: the loaded pages.  `mediaIdsByPage` models
`idList.mediaIdsByPage.get`; pages outside `[minPage, maxPage]` are never
read by `getDataSourceMediaIds`. -/
structure IdList where
  minPage : Int
  maxPage : Int
  mediaIdsByPage : Int → List MediaId

/-- The inclusive integer range `[a, b]` walked by
`for(let page = minPage; page <= maxPage; ++page)`. -/
def intRange (a b : Int) : List Int :=
  (List.range (b - a + 1).toNat).map (fun i => a + i)

/-- `_getExpandedPages`: the per-page media IDs of an expanded multi-page
post, or `none` when the ID is not expanded, has no cached info, or has at
most one page. -/
def getExpandedPages (env : ExpansionEnv) (mediaId : MediaId) : Option (List MediaId) :=
  if ¬ env.isExpanded mediaId then none
  else
    match env.pageCount mediaId with
    | none => none
    | some pageCount =>
      if pageCount ≤ 1 then none
      else some ((List.range pageCount).map (fun mangaPage => ⟨mediaId.base, mangaPage⟩))

/-- The per-item step of the `getDataSourceMediaIds` loop body: the expanded
pages when `_getExpandedPages` returns them, otherwise the item itself. -/
def flattenOne (env : ExpansionEnv) (mediaId : MediaId) : List MediaId :=
  match getExpandedPages env mediaId with
  | some mediaIdsOnPage => mediaIdsOnPage
  | none => [mediaId]

/-- `getDataSourceMediaIds`: all media IDs of the loaded pages in page
order, expansion-flattened, paired with their source page
(`mediaIdPages`, modelled as an association list in insertion order).
Throws (`Except.error`) when the flattened list has a duplicate media ID,
mirroring `throw Error("Duplicate media IDs")`; the JS `Set`-size test is
`allMediaIds.dedup.length = allMediaIds.length`. -/
def getDataSourceMediaIds (env : ExpansionEnv) (idl : IdList) :
    Except Unit (List MediaId × List (MediaId × Int)) :=
  let entries :=
    (intRange idl.minPage idl.maxPage).flatMap (fun page =>
      (idl.mediaIdsByPage page).flatMap (fun mediaId =>
        (flattenOne env mediaId).map (fun pageMediaId => (pageMediaId, page))))
  let allMediaIds := entries.map (·.1)
  if allMediaIds.dedup.length = allMediaIds.length then
    Except.ok (allMediaIds, entries)
  else
    Except.error ()

/-- Lookup in the `mediaIdPages` map. -/
def pageLookup (pages : List (MediaId × Int)) (m : MediaId) : Option Int :=
  (pages.find? (fun e => e.1 = m)).map (·.2)

/-! ## Row packing -/

/-- A thumbnail node as the row packer sees it: its media ID and its current
`--thumb-width`/`--thumb-height` in pixels. -/
structure TileNode where
  mediaId : MediaId
  w : ℚ
  h : ℚ
deriving DecidableEq, Repr

/-- One row `div` of the thumbnail box: its child tiles in order and its
`data-open` flag. -/
structure RowModel where
  tiles : List TileNode
  isOpen : Bool
deriving DecidableEq, Repr

/-- The height of the tallest tile (`Math.max` fold starting at 0). -/
def maxHeight (tiles : List TileNode) : ℚ :=
  tiles.foldl (fun m t => max m t.h) 0

/-- Sum of the tiles' widths. -/
def sumWidths (tiles : List TileNode) : ℚ :=
  (tiles.map (·.w)).sum

/-- All tiles have positive width and height (every rendered thumb does:
`_thumbnailSize` rounds positive pixel sizes). -/
def posTiles (tiles : List TileNode) : Prop := ∀ t ∈ tiles, 0 < t.w ∧ 0 < t.h

/-- One iteration of the first `_closeRow` pass, expanding the tile at
index `i` toward the current tallest height, capped by the unused
horizontal space; the row is re-measured on every iteration because the
loop mutates the tiles as it goes.  `W` is `row.offsetWidth` and `padding`
is `sizingStyle.padding`. -/
def pass1Step (padding W : ℚ) (tiles : List TileNode) (i : Nat) : List TileNode :=
  match tiles[i]? with
  | none => tiles
  | some thumbToExpand =>
    let maxH := maxHeight tiles
    let availWidth := W - padding * ((tiles.length : ℚ) - 1) - sumWidths tiles
    let maxW := thumbToExpand.w + availWidth
    let expandBy := min (maxH / thumbToExpand.h) (maxW / thumbToExpand.w)
    tiles.set i
      { thumbToExpand with
        w := thumbToExpand.w * expandBy, h := thumbToExpand.h * expandBy }

/-- First `_closeRow` pass: every tile, in order, expands toward the
tallest height subject to the spare width. -/
def pass1 (padding W : ℚ) (tiles : List TileNode) : List TileNode :=
  (List.range tiles.length).foldl (pass1Step padding W) tiles

/-- Second `_closeRow` pass: scale every tile so its height equals the
tallest height. -/
def pass2 (tiles : List TileNode) : List TileNode :=
  let maxH := maxHeight tiles
  tiles.map (fun t =>
    let ratio := maxH / t.h
    { t with w := t.w * ratio, h := t.h * ratio })

/-- Third `_closeRow` pass: scale the whole row so tiles plus gaps would
fill the container width. -/
def pass3 (padding W : ℚ) (tiles : List TileNode) : List TileNode :=
  let width := padding * ((tiles.length : ℚ) - 1) + sumWidths tiles
  let expandBy := W / width
  tiles.map (fun t => { t with w := t.w * expandBy, h := t.h * expandBy })

/-- The tile sizes produced by closing a row: the three `_closeRow`
passes in order. -/
def closeRowTiles (padding W : ℚ) (tiles : List TileNode) : List TileNode :=
  pass3 padding W (pass2 (pass1 padding W tiles))

/-- `_closeRow` on a row record: a no-op on an already-closed row,
otherwise finalize the tiles and clear `data-open`. -/
def closeRowModel (padding W : ℚ) (row : RowModel) : RowModel :=
  if ¬ row.isOpen then row
  else { tiles := closeRowTiles padding W row.tiles, isOpen := false }

/-- A freshly created row `div` with `data-open` set. -/
def emptyOpenRow : RowModel := { tiles := [], isOpen := true }

/-- Apply `f` to the last element of a list. -/
def modifyLast {α : Type} (f : α → α) : List α → List α
  | [] => []
  | [x] => [f x]
  | x :: y :: ys => x :: modifyLast f (y :: ys)

/-- Apply `f` to the first element of a list. -/
def modifyHead {α : Type} (f : α → α) : List α → List α
  | [] => []
  | x :: xs => f x :: xs

/-- `_getOpenRow`: keep the current first/last row when it is still open,
otherwise create a new open row at that edge. -/
def getOpenRow (rows : List RowModel) (atEnd : Bool) : List RowModel :=
  if atEnd then
    match rows.getLast? with
    | some row => if row.isOpen then rows else rows ++ [emptyOpenRow]
    | none => rows ++ [emptyOpenRow]
  else
    match rows.head? with
    | some row => if row.isOpen then rows else emptyOpenRow :: rows
    | none => emptyOpenRow :: rows

/-- The content width of a row's children: inter-tile gaps plus tile
widths (the model of `scrollWidth` against `offsetWidth`). -/
def rowContentWidth (padding : ℚ) (tiles : List TileNode) : ℚ :=
  padding * ((tiles.length : ℚ) - 1) + sumWidths tiles

/-- `_addThumbToRow`: insert the node into the open row at the chosen edge;
when the row's content then overflows the container width, remove the node,
close that row, and put the node on a fresh open row at the same edge. -/
def addThumbToRow (padding W : ℚ) (rows : List RowModel) (node : TileNode)
    (atEnd : Bool) : List RowModel :=
  let rows1 := getOpenRow rows atEnd
  let rows2 :=
    if atEnd then modifyLast (fun r => { r with tiles := r.tiles ++ [node] }) rows1
    else modifyHead (fun r => { r with tiles := node :: r.tiles }) rows1
  let addToRow := (if atEnd then rows2.getLast? else rows2.head?).getD emptyOpenRow
  if rowContentWidth padding addToRow.tiles ≤ W then rows2
  else
    let rows3 :=
      if atEnd then
        modifyLast (fun r => closeRowModel padding W { r with tiles := r.tiles.dropLast }) rows2
      else
        modifyHead (fun r => closeRowModel padding W { r with tiles := r.tiles.tail }) rows2
    let rows4 := getOpenRow rows3 atEnd
    if atEnd then modifyLast (fun r => { r with tiles := r.tiles ++ [node] }) rows4
    else modifyHead (fun r => { r with tiles := node :: r.tiles }) rows4

/-- The open row at the chosen edge after `_getOpenRow` (accessor used to
state theorems about `_addThumbToRow`). -/
def openEdge (rows : List RowModel) (atEnd : Bool) : RowModel :=
  (if atEnd then (getOpenRow rows atEnd).getLast?
   else (getOpenRow rows atEnd).head?).getD emptyOpenRow

/-- The rows other than the open edge row after `_getOpenRow`. -/
def openRest (rows : List RowModel) (atEnd : Bool) : List RowModel :=
  if atEnd then (getOpenRow rows atEnd).dropLast else (getOpenRow rows atEnd).tail

/-! ## The refresh pipeline -/

/-- The mutable view state that `refreshImages` reads and writes: the
ordered `this.thumbs` dictionary, `this.rows`, and the previously cached
`this.sizingStyle` (null before the first refresh). -/
structure SearchState where
  thumbs : List ThumbEntry
  rows : List RowModel
  sizingStyle : Option SizingStyle
deriving DecidableEq, Repr

/-- The named arguments of `refreshImages` that matter to the state (the
`cause` string is diagnostics only). -/
structure RefreshArgs where
  targetMediaId : Option MediaId
  purge : Bool
deriving DecidableEq, Repr

/-- The ambient inputs of one `refreshImages` call: the freshly computed
sizing style, the scroll container height, the platform flag, the
expansion inputs, the per-thumb size chosen by `_thumbnailSize`
(media info is assumed available, as `setupThumb` otherwise throws), and
the media ID of the scroll anchor captured by `saveScrollPosition()` at
entry (used as the target on a purge). -/
structure RefreshEnv where
  sizing : SizingStyle
  scrollHeight : Nat
  ios : Bool
  expansion : ExpansionEnv
  thumbSize : MediaId → ℚ × ℚ
  savedScrollMediaId : Option MediaId

/-- The outcome of a `refreshImages` call: whether it ran to completion
(`ok := false` models the propagated "Duplicate media IDs" exception), the
resulting state, and how many thumbnail elements were created
(`createThumb` calls) and destroyed (`_clearThumbs` removals). -/
structure RefreshResult where
  ok : Bool
  st : SearchState
  created : Nat
  destroyed : Nat
deriving Repr

/-- `purge` as effectively used by `refreshImages`: the caller's flag,
forced when a cached sizing style exists and differs from the fresh one. -/
def effectivePurge (env : RefreshEnv) (st : SearchState) (args : RefreshArgs) : Bool :=
  args.purge ||
    match st.sizingStyle with
    | some oldSizingStyle => decide (oldSizingStyle ≠ env.sizing)
    | none => false

/-- The fallback of `refreshImages` when `targetMediaId` is not in
`allMediaIds`: retry with the first manga page
(`helpers.mediaId.getMediaIdFirstPage`). -/
def remapTarget (allMediaIds : List MediaId) (t : Option MediaId) : Option MediaId :=
  match t with
  | none => none
  | some m => if jsIndexOf allMediaIds m = -1 then some ⟨m.base, 0⟩ else some m

/-- The node built by `createThumb` for a media ID, sized by
`_setThumbnailSize`. -/
def mkTile (env : RefreshEnv) (m : MediaId) : TileNode :=
  let wh := env.thumbSize m
  { mediaId := m, w := wh.1, h := wh.2 }

/-- The `this.thumbs` entry for a freshly created thumb: the
IntersectionObserver has not fired yet, so `nearby` is unset; the search
page comes from `mediaIdPages` (0 stands for the absent attribute, which
no loaded entry hits because every displayed ID is in the map). -/
def mkThumbEntry (pages : List (MediaId × Int)) (m : MediaId) : ThumbEntry :=
  { mediaId := m, nearby := false, searchPage := (pageLookup pages m).getD 0 }

/-- The "Add thumbs to the end" loop: create each thumb, `addToEnd` it in
`this.thumbs`, and hand it to the row packer at the back edge.  The
accumulator also counts `createThumb` calls. -/
def addThumbsAtEnd (env : RefreshEnv) (pages : List (MediaId × Int))
    (acc : List ThumbEntry × List RowModel × Nat) (ids : List MediaId) :
    List ThumbEntry × List RowModel × Nat :=
  ids.foldl
    (fun a m =>
      (a.1 ++ [mkThumbEntry pages m],
       addThumbToRow env.sizing.padding (env.sizing.containerWidth : ℚ) a.2.1
         (mkTile env m) true,
       a.2.2 + 1))
    acc

/-- The "Add thumbs to the beginning" loop: walk the preceding IDs from the
anchor outwards, `addToBeginning` each in `this.thumbs`, and hand it to the
row packer at the front edge. -/
def addThumbsAtBeginning (env : RefreshEnv) (pages : List (MediaId × Int))
    (acc : List ThumbEntry × List RowModel × Nat) (ids : List MediaId) :
    List ThumbEntry × List RowModel × Nat :=
  ids.foldl
    (fun a m =>
      (mkThumbEntry pages m :: a.1,
       addThumbToRow env.sizing.padding (env.sizing.containerWidth : ℚ) a.2.1
         (mkTile env m) false,
       a.2.2 + 1))
    acc

/-- The two creation loops of `refreshImages`: append `mediaIds[l+1 ..]`
at the end, then prepend `mediaIds[f-1 .. 0]` at the beginning. -/
def applyWindow (env : RefreshEnv) (pages : List (MediaId × Int))
    (mediaIds : List MediaId) (thumbs : List ThumbEntry) (rows : List RowModel)
    (f l : Int) : List ThumbEntry × List RowModel × Nat :=
  let acc1 := addThumbsAtEnd env pages (thumbs, rows, 0) (mediaIds.drop (l + 1).toNat)
  addThumbsAtBeginning env pages acc1 (mediaIds.take f.toNat).reverse

/-- The target media ID `refreshImages` works with before the
first-page fallback: the caller's argument, defaulted on a purge to the
scroll anchor's ID (`targetMediaId ??= savedScroll?.mediaId`). -/
def requestedTarget (env : RefreshEnv) (st : SearchState) (args : RefreshArgs) :
    Option MediaId :=
  match args.targetMediaId with
  | some t => some t
  | none => if effectivePurge env st args then env.savedScrollMediaId else none

/-- The tail of `refreshImages` after the purge handling and the
successful `getDataSourceMediaIds` call: pick the display range, slice it,
check for an incremental update, clear on a full refresh, and run the two
creation loops.  `thumbs0`, `rows0` and `destroyed0` are the view state
after the optional purge. -/
def refreshImagesCore (env : RefreshEnv) (st : SearchState) (args : RefreshArgs)
    (allMediaIds : List MediaId) (mediaIdPages : List (MediaId × Int))
    (thumbs0 : List ThumbEntry) (rows0 : List RowModel) (destroyed0 : Nat) :
    RefreshResult :=
  let targetMediaId := remapTarget allMediaIds (requestedTarget env st args)
  let range := getMediaIdsToDisplay env.sizing env.scrollHeight env.ios
    thumbs0 allMediaIds targetMediaId
  let mediaIds := jsSlice allMediaIds range.1 (range.2 + 1)
  let currentMediaIds := thumbs0.map (·.mediaId)
  let firstExistingIdx := jsIndexOfOpt mediaIds currentMediaIds.head?
  let lastExistingIdx := jsIndexOfOpt mediaIds currentMediaIds.getLast?
  let incrementalUpdate :=
    firstExistingIdx ≠ -1 ∧ lastExistingIdx ≠ -1 ∧
      jsSlice mediaIds firstExistingIdx (lastExistingIdx + 1) = currentMediaIds
  let stage :=
    if incrementalUpdate then
      (thumbs0, rows0, destroyed0, firstExistingIdx, lastExistingIdx)
    else
      let restoreIdx := jsIndexOfOpt mediaIds targetMediaId
      let fl : Int × Int :=
        if restoreIdx ≠ -1 then (restoreIdx, restoreIdx - 1) else (0, -1)
      (([] : List ThumbEntry), ([] : List RowModel),
        destroyed0 + thumbs0.length, fl.1, fl.2)
  let added := applyWindow env mediaIdPages mediaIds stage.1 stage.2.1
    stage.2.2.2.1 stage.2.2.2.2
  { ok := true,
    st := { thumbs := added.1, rows := added.2.1, sizingStyle := some env.sizing },
    created := added.2.2, destroyed := stage.2.2.1 }

/-- `refreshImages`.  The data source is present (the JS early-returns when
it is null).  Scroll save/restore is modelled separately
(`restoreScrollPosition` below) as it touches no thumb/row state. -/
def refreshImages (env : RefreshEnv) (idl : IdList) (st : SearchState)
    (args : RefreshArgs) : RefreshResult :=
  let purge := effectivePurge env st args
  let cleared := if purge then ([], [], st.thumbs.length)
                 else (st.thumbs, st.rows, (0 : Nat))
  let thumbs0 := cleared.1
  let rows0 := cleared.2.1
  let destroyed0 := cleared.2.2
  match getDataSourceMediaIds env.expansion idl with
  | Except.error _ =>
    { ok := false,
      st := { thumbs := thumbs0, rows := rows0, sizingStyle := some env.sizing },
      created := 0, destroyed := destroyed0 }
  | Except.ok (allMediaIds, mediaIdPages) =>
    refreshImagesCore env st args allMediaIds mediaIdPages thumbs0 rows0 destroyed0

/-! ## Pagination trigger -/

/-- The data source API consumed by `_dataSourcePageToLoad`:
`initialPage`, `isPageLoadedOrLoading` and `canLoadPage`. -/
structure DataSourceAPI where
  initialPage : Int
  isPageLoadedOrLoading : Int → Bool
  canLoadPage : Int → Bool

/-- `get _dataSourcePageToLoad`: the next data source page to load, or
`none`.  The first (forward) candidate requires `canLoadPage`; the
backward candidate checks only `isPageLoadedOrLoading`, exactly as in the
source. -/
def dataSourcePageToLoad (ds : DataSourceAPI) (thumbs : List ThumbEntry) : Option Int :=
  if ¬ ds.isPageLoadedOrLoading ds.initialPage then some ds.initialPage
  else
    match thumbs with
    | [] => none
    | firstThumb :: rest =>
      let lastThumb := (firstThumb :: rest).getLast (by simp)
      let forward : Option Int :=
        if lastThumb.nearby then
          let loadPage := lastThumb.searchPage + 1
          if ds.canLoadPage loadPage ∧ ¬ ds.isPageLoadedOrLoading loadPage then
            some loadPage
          else none
        else none
      match forward with
      | some p => some p
      | none =>
        if firstThumb.nearby then
          let loadPage := firstThumb.searchPage - 1
          if ¬ ds.isPageLoadedOrLoading loadPage then some loadPage else none
        else none

/-- Modelled from the spec: the `GuardedRunner` behind
`this._loadPageRunner` (its implementation lives in `helpers.js`, outside
the given sources).  Per the spec's concurrency model, a guard ensures only
one load operation is in flight at a time; `isRunning` and the identity of
the outstanding `promise` are its observable state. -/
structure RunnerState where
  isRunning : Bool
  promiseId : Nat
deriving DecidableEq, Repr

/-- `loadDataSourcePage`'s guard: while the runner is running, return the
existing in-flight promise; otherwise start a new call, which becomes the
in-flight promise (`newPromiseId` names the promise a fresh call would
produce). -/
def loadDataSourcePage (runner : RunnerState) (newPromiseId : Nat) : RunnerState × Nat :=
  if runner.isRunning then (runner, runner.promiseId)
  else ({ isRunning := true, promiseId := newPromiseId }, newPromiseId)

/-! ## Scroll position save/restore -/

/-- The record produced by `saveScrollPosition`: the anchor media ID and
the opaque saved offset from `helpers.html.saveScrollPosition`. -/
structure ScrollRecord where
  mediaId : MediaId
  savedScroll : ℚ
deriving DecidableEq, Repr

/-- `getThumbnailForMediaId` without the `fallbackOnPage1` option (the
path `restoreScrollPosition` uses): the materialized thumb for the ID. -/
def getThumbnailForMediaId (thumbs : List ThumbEntry) (m : MediaId) : Option ThumbEntry :=
  thumbs.find? (fun t => t.mediaId = m)

/-- Modelled from the spec: `helpers.html.restoreScrollPosition` (defined
outside the given sources) sets the scroll position to the anchor
element's position minus the saved offset; `pos` gives each element's
position. -/
def helpersRestoreScroll (pos : MediaId → ℚ) (m : MediaId) (savedScroll : ℚ) : ℚ :=
  pos m - savedScroll

/-- `restoreScrollPosition`: returns whether restoration succeeded together
with the resulting `scrollContainer` scroll position (unchanged from
`scrollTop` on failure). -/
def restoreScrollPosition (pos : MediaId → ℚ) (thumbs : List ThumbEntry)
    (scrollTop : ℚ) (scroll : Option ScrollRecord) : Bool × ℚ :=
  match scroll with
  | none => (false, scrollTop)
  | some record =>
    match getThumbnailForMediaId thumbs record.mediaId with
    | none => (false, scrollTop)
    | some _ => (true, helpersRestoreScroll pos record.mediaId record.savedScroll)

/-- The tail of `_setDataSource` when no target media ID was given: restore
the saved scroll position, falling back to the top
(`this.scrollContainer.scrollTop = 0`) when restoration fails. -/
def setDataSourceScrollTail (pos : MediaId → ℚ) (thumbs : List ThumbEntry)
    (scrollTop : ℚ) (scroll : Option ScrollRecord) : ℚ :=
  let r := restoreScrollPosition pos thumbs scrollTop scroll
  if r.1 then r.2 else 0

/-! ## Concrete instances used by witnesses and counterexamples -/

/-- A data source with pages 2..4 loaded, page 5 loadable (the
pagination scenario of the spec). -/
def dsForward : DataSourceAPI :=
  { initialPage := 2,
    isPageLoadedOrLoading := fun p => decide (2 ≤ p ∧ p ≤ 4),
    canLoadPage := fun _ => true }

/-- A thumb on page 4, flagged nearby. -/
def thumbOnPage4 : ThumbEntry := { mediaId := ⟨1, 0⟩, nearby := true, searchPage := 4 }

/-- A data source whose only loaded-or-loading page is its initial page 2
and that reports no page as loadable. -/
def dsNoneLoadable : DataSourceAPI :=
  { initialPage := 2,
    isPageLoadedOrLoading := fun p => decide (p = 2),
    canLoadPage := fun _ => false }

/-- A thumb on page 2, flagged nearby. -/
def thumbOnPage2 : ThumbEntry := { mediaId := ⟨7, 0⟩, nearby := true, searchPage := 2 }

/-- The sizing style of the initial-load scenario: 1000px container,
400x400 desired tile size (160000 px² budget). -/
def sizingC6 : SizingStyle :=
  { columns := 5, padding := 10, thumbWidth := 400, thumbHeight := 400,
    containerWidth := 1000, desiredPixels := 160000 }

/-- 500 distinct media IDs. -/
def allIds500 : List MediaId := (List.range 500).map (fun i => ⟨i, 0⟩)

/-- A 300x300 tile. -/
def tile300 : TileNode := { mediaId := ⟨1, 0⟩, w := 300, h := 300 }

/-- A single open row already holding three 300x300 tiles. -/
def rowsThree : List RowModel := [{ tiles := [tile300, tile300, tile300], isOpen := true }]

/-- Expansion metadata for the witness: item 4 is expanded with 3 pages,
everything else is a single page. -/
def expEnvC8 : ExpansionEnv :=
  { isExpanded := fun m => decide (m.base = 4),
    pageCount := fun m => if m.base = 4 then some 3 else some 1 }

/-- Loaded pages for the witness: page 2 holds items 4 and 9, page 3 holds
item 7. -/
def idlC8 : IdList :=
  { minPage := 2, maxPage := 3,
    mediaIdsByPage := fun p =>
      if p = 2 then [⟨4, 0⟩, ⟨9, 0⟩] else if p = 3 then [⟨7, 0⟩] else [] }

/-- A refresh environment over the 1000x800 viewport with square thumbs
and no expansion. -/
def envPlain : RefreshEnv :=
  { sizing := sizingC6, scrollHeight := 800, ios := false,
    expansion := { isExpanded := fun _ => false, pageCount := fun _ => none },
    thumbSize := fun _ => (300, 300), savedScrollMediaId := none }

/-- A data source whose single page 0 contains a duplicated media ID. -/
def idlDup : IdList :=
  { minPage := 0, maxPage := 0, mediaIdsByPage := fun _ => [⟨1, 0⟩, ⟨1, 0⟩] }

/-- A view state with one materialized thumb and no cached sizing style. -/
def stOneThumb : SearchState :=
  { thumbs := [⟨⟨5, 0⟩, false, 0⟩], rows := [], sizingStyle := none }

/-- Ten distinct media IDs. -/
def allIds10 : List MediaId := (List.range 10).map (fun i => ⟨i, 0⟩)

/-- A data source whose single page 1 holds the ten IDs. -/
def idlTen : IdList :=
  { minPage := 1, maxPage := 1, mediaIdsByPage := fun _ => allIds10 }

/-- The id-to-page map matching `idlTen`. -/
def pages10 : List (MediaId × Int) := allIds10.map (fun m => (m, 1))

/-- An empty view state. -/
def stEmpty : SearchState := { thumbs := [], rows := [], sizingStyle := none }

/-- A view state that has the ten IDs materialized and the current sizing
style cached, as left behind by a completed refresh. -/
def stTen : SearchState :=
  { thumbs := allIds10.map (fun m => ⟨m, false, 1⟩),
    rows := [{ tiles := allIds10.map (fun m => ⟨m, 300, 300⟩), isOpen := true }],
    sizingStyle := some sizingC6 }

/-! ## Supporting lemmas -/

theorem jsIndexOf_nil {α : Type} [DecidableEq α] (x : α) :
    jsIndexOf ([] : List α) x = -1 := rfl

theorem jsIndexOf_cons {α : Type} [DecidableEq α] (y : α) (ys : List α) (x : α) :
    jsIndexOf (y :: ys) x =
      if y = x then 0
      else if jsIndexOf ys x = -1 then -1 else jsIndexOf ys x + 1 := rfl

/-- `indexOf` returns -1 or a valid index. -/
theorem jsIndexOf_bounds {α : Type} [DecidableEq α] (l : List α) (x : α) :
    jsIndexOf l x = -1 ∨ (0 ≤ jsIndexOf l x ∧ jsIndexOf l x < (l.length : Int)) := by
  induction l with
  | nil => exact Or.inl rfl
  | cons y ys ih =>
    rw [jsIndexOf_cons]
    by_cases h : y = x
    · simp only [h, if_pos rfl]
      right
      constructor
      · exact le_refl 0
      · simp only [List.length_cons]
        omega
    · simp only [if_neg h]
      rcases ih with h1 | h1
      · simp only [h1, if_pos rfl]
        exact Or.inl rfl
      · have hne : jsIndexOf ys x ≠ -1 := by omega
        simp only [if_neg hne, List.length_cons]
        right
        omega

/-- A found index is non-negative. -/
theorem jsIndexOf_nonneg_of_ne {α : Type} [DecidableEq α] (l : List α) (x : α)
    (h : jsIndexOf l x ≠ -1) : 0 ≤ jsIndexOf l x ∧ jsIndexOf l x < (l.length : Int) := by
  rcases jsIndexOf_bounds l x with h1 | h1
  · exact absurd h1 h
  · exact h1

theorem jsIndexOfOpt_none {α : Type} [DecidableEq α] (l : List α) :
    jsIndexOfOpt l (none : Option α) = -1 := rfl

theorem jsIndexOfOpt_some {α : Type} [DecidableEq α] (l : List α) (x : α) :
    jsIndexOfOpt l (some x) = jsIndexOf l x := rfl

/-- A found `Option` index is non-negative. -/
theorem jsIndexOfOpt_nonneg_of_ne {α : Type} [DecidableEq α] (l : List α) (x : Option α)
    (h : jsIndexOfOpt l x ≠ -1) :
    0 ≤ jsIndexOfOpt l x ∧ jsIndexOfOpt l x < (l.length : Int) := by
  cases x with
  | none => exact absurd rfl h
  | some v => exact jsIndexOf_nonneg_of_ne l v h

/-- The head of a list is found at index 0. -/
theorem jsIndexOf_head {α : Type} [DecidableEq α] (l : List α) (c : α)
    (h : l.head? = some c) : jsIndexOf l c = 0 := by
  cases l with
  | nil => simp at h
  | cons y ys =>
    simp only [List.head?_cons, Option.some.injEq] at h
    rw [jsIndexOf_cons, if_pos h]

/-- In a duplicate-free list the last element is found at the last index. -/
theorem jsIndexOf_getLast_nodup {α : Type} [DecidableEq α] (l : List α) (c : α)
    (hnd : l.Nodup) (h : l.getLast? = some c) :
    jsIndexOf l c = (l.length : Int) - 1 := by
  induction l with
  | nil => simp at h
  | cons y ys ih =>
    cases ys with
    | nil =>
      simp only [List.getLast?_singleton, Option.some.injEq] at h
      rw [jsIndexOf_cons, if_pos h]
      simp
    | cons z zs =>
      rw [List.getLast?_cons_cons] at h
      have hmem : c ∈ z :: zs := by
        have := List.mem_getLast?_eq_getLast (l := z :: zs) (x := c) h
        rcases this with ⟨hne, heq⟩
        rw [heq]
        exact List.getLast_mem hne
      have hy : y ≠ c := by
        intro hyc
        rw [hyc] at hnd
        exact (List.nodup_cons.mp hnd).1 hmem
      have htail := ih (List.nodup_cons.mp hnd).2 h
      rw [jsIndexOf_cons, if_neg hy]
      have hne2 : jsIndexOf (z :: zs) c ≠ -1 := by
        rw [htail]
        simp only [List.length_cons]
        omega
      rw [if_neg hne2, htail]
      simp only [List.length_cons]
      push_cast
      ring

/-- `jsSlice` always yields a contiguous infix. -/
theorem jsSlice_contiguous {α : Type} (l : List α) (a b : Int) : jsSlice l a b <:+: l := by
  refine ⟨l.take a.toNat, (l.drop a.toNat).drop (b - a).toNat, ?_⟩
  unfold jsSlice
  rw [List.append_assoc, List.take_append_drop, List.take_append_drop]

/-- Splitting a list around a `jsSlice` window `[f, lastIdx]`. -/
theorem take_jsSlice_drop {α : Type} (l : List α) (f lastIdx : Int)
    (hf : 0 ≤ f) (hfl : f ≤ lastIdx + 1) :
    l.take f.toNat ++ (jsSlice l f (lastIdx + 1) ++ l.drop (lastIdx + 1).toNat) = l := by
  unfold jsSlice
  have h1 : (lastIdx + 1).toNat = f.toNat + (lastIdx + 1 - f).toNat := by omega
  conv_rhs => rw [← List.take_append_drop f.toNat l]
  congr 1
  conv_rhs => rw [← List.take_append_drop ((lastIdx + 1 - f).toNat) (l.drop f.toNat)]
  congr 1
  rw [List.drop_drop, h1, Nat.add_comm]

/-- Slicing the whole list is the identity. -/
theorem jsSlice_all {α : Type} (l : List α) : jsSlice l 0 (l.length : Int) = l := by
  unfold jsSlice
  simp

/-- The JS `Set`-size duplicate test is exactly `Nodup`. -/
theorem dedup_length_eq_iff_nodup {α : Type} [DecidableEq α] (l : List α) :
    l.dedup.length = l.length ↔ l.Nodup := by
  constructor
  · intro h
    rw [← List.dedup_eq_self]
    exact (List.dedup_sublist l).eq_of_length h
  · intro h
    rw [List.dedup_eq_self.mpr h]

/-- The loaded-span seed never starts past the end of the list. -/
theorem loadedSeed_fst_le (ios : Bool) (thumbs : List ThumbEntry)
    (allMediaIds : List MediaId) (hne : allMediaIds ≠ []) :
    (loadedSeed ios thumbs allMediaIds).1 ≤ (allMediaIds.length : Int) - 1 := by
  have hlen : 1 ≤ allMediaIds.length := by
    cases allMediaIds with
    | nil => exact absurd rfl hne
    | cons a l => simp
  have hbase : (if jsIndexOfOpt allMediaIds (getLoadedMediaIds thumbs).1 ≠ -1 ∧
        jsIndexOfOpt allMediaIds (getLoadedMediaIds thumbs).2 ≠ -1 then
        (jsIndexOfOpt allMediaIds (getLoadedMediaIds thumbs).1,
          jsIndexOfOpt allMediaIds (getLoadedMediaIds thumbs).2)
      else ((0 : Int), (0 : Int))).1 ≤ (allMediaIds.length : Int) - 1 := by
    split
    · rename_i hc
      obtain ⟨_, hb⟩ := jsIndexOfOpt_nonneg_of_ne allMediaIds
        (getLoadedMediaIds thumbs).1 hc.1
      simp only
      omega
    · simp only
      omega
  have hchunk : (0 : Int) < (if ios = true then (100 : Int) else 25) := by
    split <;> norm_num
  show (if jsIndexOfOpt allMediaIds (getNearbyMediaIds thumbs).1 ≠ -1 ∧
      jsIndexOfOpt allMediaIds (getNearbyMediaIds thumbs).1 =
        jsIndexOfOpt allMediaIds (getLoadedMediaIds thumbs).1 then
      (if jsIndexOfOpt allMediaIds (getLoadedMediaIds thumbs).1 ≠ -1 ∧
          jsIndexOfOpt allMediaIds (getLoadedMediaIds thumbs).2 ≠ -1 then
          (jsIndexOfOpt allMediaIds (getLoadedMediaIds thumbs).1,
            jsIndexOfOpt allMediaIds (getLoadedMediaIds thumbs).2)
        else ((0 : Int), (0 : Int))).1 -
        (if ios = true then (100 : Int) else 25)
    else
      (if jsIndexOfOpt allMediaIds (getLoadedMediaIds thumbs).1 ≠ -1 ∧
          jsIndexOfOpt allMediaIds (getLoadedMediaIds thumbs).2 ≠ -1 then
          (jsIndexOfOpt allMediaIds (getLoadedMediaIds thumbs).1,
            jsIndexOfOpt allMediaIds (getLoadedMediaIds thumbs).2)
        else ((0 : Int), (0 : Int))).1) ≤ (allMediaIds.length : Int) - 1
  split
  · omega
  · exact hbase

/-- The pre-clamp seed never starts past the end of the list. -/
theorem seedRange_fst_le (ios : Bool) (thumbs : List ThumbEntry)
    (allMediaIds : List MediaId) (targetMediaId : Option MediaId)
    (hne : allMediaIds ≠ []) :
    (seedRange ios thumbs allMediaIds targetMediaId).1 ≤
      (allMediaIds.length : Int) - 1 := by
  have hlen : 1 ≤ allMediaIds.length := by
    cases allMediaIds with
    | nil => exact absurd rfl hne
    | cons a l => simp
  cases targetMediaId with
  | none =>
    have h : seedRange ios thumbs allMediaIds none =
        loadedSeed ios thumbs allMediaIds := by
      unfold seedRange
      rw [if_neg]
      simp
    rw [h]
    exact loadedSeed_fst_le ios thumbs allMediaIds hne
  | some t =>
    by_cases hc : ((thumbs.find? (fun th => th.mediaId = t)).isNone : Bool) = true ∧
        jsIndexOfOpt allMediaIds (some t) ≠ -1
    · have h : seedRange ios thumbs allMediaIds (some t) =
          (jsIndexOfOpt allMediaIds (some t), jsIndexOfOpt allMediaIds (some t)) := by
        unfold seedRange
        rw [if_pos hc]
      rw [h]
      obtain ⟨_, hb⟩ := jsIndexOfOpt_nonneg_of_ne allMediaIds (some t) hc.2
      simp only
      omega
    · have h : seedRange ios thumbs allMediaIds (some t) =
          loadedSeed ios thumbs allMediaIds := by
        unfold seedRange
        rw [if_neg hc]
      rw [h]
      exact loadedSeed_fst_le ios thumbs allMediaIds hne

theorem modifyLast_concat {α : Type} (f : α → α) (xs : List α) (x : α) :
    modifyLast f (xs ++ [x]) = xs ++ [f x] := by
  induction xs with
  | nil => rfl
  | cons y ys ih =>
    cases hys : ys ++ [x] with
    | nil => exact absurd hys (by simp)
    | cons z zs =>
      have h1 : (y :: ys) ++ [x] = y :: z :: zs := by rw [List.cons_append, hys]
      rw [h1]
      show y :: modifyLast f (z :: zs) = (y :: ys) ++ [f x]
      rw [← hys, ih, List.cons_append]

/-- `_getOpenRow` at the back edge yields the prior rows except that the
last row is open, with `openRest`/`openEdge` naming the split. -/
theorem getOpenRow_true_eq (rows : List RowModel) :
    getOpenRow rows true = openRest rows true ++ [openEdge rows true] ∧
      (openEdge rows true).isOpen = true := by
  unfold openEdge openRest
  cases hl : rows.getLast? with
  | none =>
    have hnil : rows = [] := by simpa using hl
    subst hnil
    simp [getOpenRow, emptyOpenRow]
  | some r =>
    by_cases hr : r.isOpen
    · have hgo : getOpenRow rows true = rows := by
        simp [getOpenRow, hl, hr]
      rw [hgo, hl]
      simp only [Option.getD_some, if_pos rfl]
      exact ⟨(List.dropLast_append_getLast? r (by rw [hl]; rfl)).symm, hr⟩
    · have hgo : getOpenRow rows true = rows ++ [emptyOpenRow] := by
        simp [getOpenRow, hl, hr]
      rw [hgo]
      constructor
      · simp [List.getLast?_concat, List.dropLast_concat]
      · simp [List.getLast?_concat, emptyOpenRow]

/-- `_getOpenRow` at the front edge yields the prior rows except that the
first row is open. -/
theorem getOpenRow_false_eq (rows : List RowModel) :
    getOpenRow rows false = openEdge rows false :: openRest rows false ∧
      (openEdge rows false).isOpen = true := by
  unfold openEdge openRest
  cases rows with
  | nil => simp [getOpenRow, emptyOpenRow]
  | cons r rs =>
    by_cases hr : r.isOpen
    · have hgo : getOpenRow (r :: rs) false = r :: rs := by
        simp [getOpenRow, hr]
      rw [hgo]
      exact ⟨rfl, hr⟩
    · have hgo : getOpenRow (r :: rs) false = emptyOpenRow :: r :: rs := by
        simp [getOpenRow, hr]
      rw [hgo]
      exact ⟨rfl, rfl⟩

theorem sumWidths_nil : sumWidths [] = 0 := rfl

theorem sumWidths_cons (t : TileNode) (l : List TileNode) :
    sumWidths (t :: l) = t.w + sumWidths l := by
  simp [sumWidths]

theorem foldl_maxh_init_le (l : List TileNode) (a : ℚ) :
    a ≤ l.foldl (fun m t => max m t.h) a := by
  induction l generalizing a with
  | nil => exact le_refl a
  | cons y ys ih => exact le_trans (le_max_left a y.h) (ih (max a y.h))

theorem height_le_foldl_maxh (l : List TileNode) (a : ℚ) (t : TileNode) (ht : t ∈ l) :
    t.h ≤ l.foldl (fun m t => max m t.h) a := by
  induction l generalizing a with
  | nil => simp at ht
  | cons y ys ih =>
    rcases List.mem_cons.mp ht with h | h
    · subst h
      exact le_trans (le_max_right a t.h) (foldl_maxh_init_le ys (max a t.h))
    · exact ih (max a y.h) h

theorem height_le_maxHeight (l : List TileNode) (t : TileNode) (ht : t ∈ l) :
    t.h ≤ maxHeight l :=
  height_le_foldl_maxh l 0 t ht

theorem sumWidths_set (l : List TileNode) (i : Nat) (t t' : TileNode)
    (h : l[i]? = some t) :
    sumWidths (l.set i t') = sumWidths l - t.w + t'.w := by
  induction l generalizing i with
  | nil => simp at h
  | cons y ys ih =>
    cases i with
    | zero =>
      simp only [List.getElem?_cons_zero, Option.some.injEq] at h
      subst h
      rw [List.set_cons_zero, sumWidths_cons, sumWidths_cons]
      ring
    | succ n =>
      simp only [List.getElem?_cons_succ] at h
      rw [List.set_cons_succ, sumWidths_cons, sumWidths_cons, ih n h]
      ring

/-- One `_closeRow` first-pass step keeps tile dimensions positive, keeps
the row content within the container, and keeps the tile count. -/
theorem pass1Step_good (padding W : ℚ) (tiles : List TileNode) (i : Nat)
    (hpos : posTiles tiles) (hfit : rowContentWidth padding tiles ≤ W) :
    posTiles (pass1Step padding W tiles i) ∧
      rowContentWidth padding (pass1Step padding W tiles i) ≤ W ∧
      (pass1Step padding W tiles i).length = tiles.length := by
  unfold pass1Step
  cases hti : tiles[i]? with
  | none => exact ⟨hpos, hfit, rfl⟩
  | some t =>
    have htmem : t ∈ tiles := List.getElem?_mem hti
    have htw : 0 < t.w := (hpos t htmem).1
    have hth : 0 < t.h := (hpos t htmem).2
    have havail0 : 0 ≤ W - padding * ((tiles.length : ℚ) - 1) - sumWidths tiles := by
      unfold rowContentWidth at hfit
      linarith
    have hone : (1 : ℚ) ≤ min (maxHeight tiles / t.h)
        ((t.w + (W - padding * ((tiles.length : ℚ) - 1) - sumWidths tiles)) / t.w) := by
      apply le_min
      · rw [one_le_div hth]
        exact height_le_maxHeight tiles t htmem
      · rw [one_le_div htw]
        linarith
    have hgrow : t.w * min (maxHeight tiles / t.h)
        ((t.w + (W - padding * ((tiles.length : ℚ) - 1) - sumWidths tiles)) / t.w) ≤
        t.w + (W - padding * ((tiles.length : ℚ) - 1) - sumWidths tiles) := by
      calc t.w * min (maxHeight tiles / t.h)
            ((t.w + (W - padding * ((tiles.length : ℚ) - 1) - sumWidths tiles)) / t.w) ≤
          t.w * ((t.w + (W - padding * ((tiles.length : ℚ) - 1) - sumWidths tiles)) / t.w) :=
            mul_le_mul_of_nonneg_left (min_le_right _ _) (le_of_lt htw)
        _ = t.w + (W - padding * ((tiles.length : ℚ) - 1) - sumWidths tiles) := by
            rw [mul_comm]
            exact div_mul_cancel₀ _ (ne_of_gt htw)
    refine ⟨?_, ?_, List.length_set tiles i _⟩
    · intro x hx
      rcases List.mem_or_eq_of_mem_set hx with hx1 | hx1
      · exact hpos x hx1
      · subst hx1
        constructor
        · exact mul_pos htw (lt_of_lt_of_le one_pos hone)
        · exact mul_pos hth (lt_of_lt_of_le one_pos hone)
    · unfold rowContentWidth
      rw [List.length_set, sumWidths_set tiles i t _ hti]
      unfold rowContentWidth at hfit
      simp only
      linarith

/-- The whole first `_closeRow` pass keeps tile dimensions positive, keeps
the row content within the container, and keeps the tile count. -/
theorem pass1_fold_good (padding W : ℚ) (idxs : List Nat) (tiles : List TileNode)
    (hpos : posTiles tiles) (hfit : rowContentWidth padding tiles ≤ W) :
    posTiles (idxs.foldl (pass1Step padding W) tiles) ∧
      rowContentWidth padding (idxs.foldl (pass1Step padding W) tiles) ≤ W ∧
      (idxs.foldl (pass1Step padding W) tiles).length = tiles.length := by
  induction idxs generalizing tiles with
  | nil => exact ⟨hpos, hfit, rfl⟩
  | cons i is ih =>
    obtain ⟨h1, h2, h3⟩ := pass1Step_good padding W tiles i hpos hfit
    obtain ⟨g1, g2, g3⟩ := ih (pass1Step padding W tiles i) h1 h2
    exact ⟨g1, g2, by rw [List.foldl_cons, g3, h3]⟩

theorem pass1_good (padding W : ℚ) (tiles : List TileNode)
    (hpos : posTiles tiles) (hfit : rowContentWidth padding tiles ≤ W) :
    posTiles (pass1 padding W tiles) ∧
      rowContentWidth padding (pass1 padding W tiles) ≤ W ∧
      (pass1 padding W tiles).length = tiles.length :=
  pass1_fold_good padding W (List.range tiles.length) tiles hpos hfit

theorem pass2_length (tiles : List TileNode) : (pass2 tiles).length = tiles.length := by
  simp [pass2]

theorem pass3_length (padding W : ℚ) (tiles : List TileNode) :
    (pass3 padding W tiles).length = tiles.length := by
  simp [pass3]

/-- After the second `_closeRow` pass every tile's height equals the
tallest height of its input. -/
theorem pass2_heights (tiles : List TileNode) (hpos : ∀ t ∈ tiles, 0 < t.h) :
    ∀ t2 ∈ pass2 tiles, t2.h = maxHeight tiles := by
  intro t2 h2
  unfold pass2 at h2
  rcases List.mem_map.mp h2 with ⟨t, ht, heq⟩
  rw [← heq]
  show t.h * (maxHeight tiles / t.h) = maxHeight tiles
  rw [mul_comm]
  exact div_mul_cancel₀ _ (ne_of_gt (hpos t ht))

/-- The sum of widths scales linearly through the third `_closeRow`
pass. -/
theorem sumWidths_pass3 (padding W : ℚ) (tiles : List TileNode) :
    sumWidths (pass3 padding W tiles) =
      sumWidths tiles *
        (W / (padding * ((tiles.length : ℚ) - 1) + sumWidths tiles)) := by
  unfold pass3 sumWidths
  rw [List.map_map]
  exact List.sum_map_mul_right tiles TileNode.w _

/-- `_addThumbToRow` at the back edge: the node lands on the open last
row when it fits; otherwise that row is closed without it and the node
starts a fresh open row. -/
theorem addThumbToRow_atEnd (padding W : ℚ) (rows : List RowModel) (node : TileNode) :
    (rowContentWidth padding ((openEdge rows true).tiles ++ [node]) ≤ W →
      addThumbToRow padding W rows node true =
        openRest rows true ++
          [{ tiles := (openEdge rows true).tiles ++ [node], isOpen := true }]) ∧
    (¬ rowContentWidth padding ((openEdge rows true).tiles ++ [node]) ≤ W →
      addThumbToRow padding W rows node true =
        openRest rows true ++
          [{ tiles := closeRowTiles padding W (openEdge rows true).tiles,
             isOpen := false },
           { tiles := [node], isOpen := true }]) := by
  obtain ⟨hdecomp, hopen⟩ := getOpenRow_true_eq rows
  rcases hE : openEdge rows true with ⟨etiles, eopen⟩
  rw [hE] at hdecomp hopen
  simp only at hopen
  subst hopen
  simp only
  have hdef : addThumbToRow padding W rows node true =
      (if rowContentWidth padding
            (((modifyLast (fun r => { r with tiles := r.tiles ++ [node] })
                (getOpenRow rows true)).getLast?.getD emptyOpenRow).tiles) ≤ W
       then modifyLast (fun r => { r with tiles := r.tiles ++ [node] })
              (getOpenRow rows true)
       else modifyLast (fun r => { r with tiles := r.tiles ++ [node] })
              (getOpenRow
                (modifyLast
                  (fun r => closeRowModel padding W { r with tiles := r.tiles.dropLast })
                  (modifyLast (fun r => { r with tiles := r.tiles ++ [node] })
                    (getOpenRow rows true)))
                true)) := rfl
  have hm1 : modifyLast (fun r => { r with tiles := r.tiles ++ [node] })
      (getOpenRow rows true) =
      openRest rows true ++ [{ tiles := etiles ++ [node], isOpen := true }] := by
    rw [hdecomp, modifyLast_concat]
  have hlast : ((openRest rows true ++
        [({ tiles := etiles ++ [node], isOpen := true } : RowModel)]).getLast?.getD
          emptyOpenRow) =
      ({ tiles := etiles ++ [node], isOpen := true } : RowModel) := by
    simp [List.getLast?_concat]
  rw [hdef, hm1, hlast]
  constructor
  · intro hfit
    rw [if_pos hfit]
  · intro hfit
    rw [if_neg hfit]
    have hm2 : modifyLast
        (fun r => closeRowModel padding W { r with tiles := r.tiles.dropLast })
        (openRest rows true ++ [{ tiles := etiles ++ [node], isOpen := true }]) =
        openRest rows true ++
          [{ tiles := closeRowTiles padding W etiles, isOpen := false }] := by
      rw [modifyLast_concat]
      congr 1
      simp [closeRowModel, List.dropLast_concat]
    have hm3 : getOpenRow (openRest rows true ++
        [{ tiles := closeRowTiles padding W etiles, isOpen := false }]) true =
        (openRest rows true ++
          [{ tiles := closeRowTiles padding W etiles, isOpen := false }]) ++
          [emptyOpenRow] := by
      simp [getOpenRow, List.getLast?_concat]
    rw [hm2, hm3, modifyLast_concat]
    rw [List.append_assoc]
    rfl

/-- `_addThumbToRow` at the front edge: the node lands on the open first
row when it fits; otherwise that row is closed without it and the node
starts a fresh open row at the front. -/
theorem addThumbToRow_atFront (padding W : ℚ) (rows : List RowModel) (node : TileNode) :
    (rowContentWidth padding (node :: (openEdge rows false).tiles) ≤ W →
      addThumbToRow padding W rows node false =
        { tiles := node :: (openEdge rows false).tiles, isOpen := true } ::
          openRest rows false) ∧
    (¬ rowContentWidth padding (node :: (openEdge rows false).tiles) ≤ W →
      addThumbToRow padding W rows node false =
        { tiles := [node], isOpen := true } ::
          { tiles := closeRowTiles padding W (openEdge rows false).tiles,
            isOpen := false } :: openRest rows false) := by
  obtain ⟨hdecomp, hopen⟩ := getOpenRow_false_eq rows
  rcases hE : openEdge rows false with ⟨etiles, eopen⟩
  rw [hE] at hdecomp hopen
  simp only at hopen
  subst hopen
  simp only
  have hdef : addThumbToRow padding W rows node false =
      (if rowContentWidth padding
            (((modifyHead (fun r => { r with tiles := node :: r.tiles })
                (getOpenRow rows false)).head?.getD emptyOpenRow).tiles) ≤ W
       then modifyHead (fun r => { r with tiles := node :: r.tiles })
              (getOpenRow rows false)
       else modifyHead (fun r => { r with tiles := node :: r.tiles })
              (getOpenRow
                (modifyHead
                  (fun r => closeRowModel padding W { r with tiles := r.tiles.tail })
                  (modifyHead (fun r => { r with tiles := node :: r.tiles })
                    (getOpenRow rows false)))
                false)) := rfl
  have hm1 : modifyHead (fun r => { r with tiles := node :: r.tiles })
      (getOpenRow rows false) =
      { tiles := node :: etiles, isOpen := true } :: openRest rows false := by
    rw [hdecomp]
    rfl
  have hlast : ((({ tiles := node :: etiles, isOpen := true } : RowModel) ::
        openRest rows false).head?.getD emptyOpenRow) =
      ({ tiles := node :: etiles, isOpen := true } : RowModel) := rfl
  rw [hdef, hm1, hlast]
  constructor
  · intro hfit
    rw [if_pos hfit]
  · intro hfit
    rw [if_neg hfit]
    have hm2 : modifyHead
        (fun r => closeRowModel padding W { r with tiles := r.tiles.tail })
        (({ tiles := node :: etiles, isOpen := true } : RowModel) ::
          openRest rows false) =
        { tiles := closeRowTiles padding W etiles, isOpen := false } ::
          openRest rows false := by
      show closeRowModel padding W { tiles := (node :: etiles).tail, isOpen := true } ::
          openRest rows false = _
      simp [closeRowModel]
    have hm3 : getOpenRow
        (({ tiles := closeRowTiles padding W etiles, isOpen := false } : RowModel) ::
          openRest rows false) false =
        emptyOpenRow ::
          { tiles := closeRowTiles padding W etiles, isOpen := false } ::
          openRest rows false := by
      simp [getOpenRow]
    rw [hm2, hm3]
    rfl

/-- With duplicate-free keys, `find?` on a key returns its unique entry. -/
theorem find?_key_unique (pairs : List (MediaId × Int))
    (hnd : (pairs.map Prod.fst).Nodup) (k : MediaId) (v : Int)
    (hmem : (k, v) ∈ pairs) :
    pairs.find? (fun e => e.1 = k) = some (k, v) := by
  induction pairs with
  | nil => simp at hmem
  | cons hd rest ih =>
    rw [List.map_cons, List.nodup_cons] at hnd
    by_cases hk : hd.1 = k
    · have hhd : hd = (k, v) := by
        rcases List.mem_cons.mp hmem with h | h
        · exact h.symm
        · exfalso
          apply hnd.1
          rw [hk]
          exact List.mem_map.mpr ⟨(k, v), h, rfl⟩
      rw [List.find?_cons_of_pos _ (by simp [hk]), hhd]
    · have hrest : (k, v) ∈ rest := by
        rcases List.mem_cons.mp hmem with h | h
        · exact absurd (by rw [← h]) hk
        · exact h
      rw [List.find?_cons_of_neg _ (by simp [hk])]
      exact ih hnd.2 hrest

theorem mkThumbEntry_mediaId (pages : List (MediaId × Int)) (m : MediaId) :
    (mkThumbEntry pages m).mediaId = m := rfl

/-- The forward creation loop appends one entry per ID and counts them. -/
theorem addThumbsAtEnd_spec (env : RefreshEnv) (pages : List (MediaId × Int))
    (acc : List ThumbEntry × List RowModel × Nat) (ids : List MediaId) :
    (addThumbsAtEnd env pages acc ids).1 = acc.1 ++ ids.map (mkThumbEntry pages) ∧
      (addThumbsAtEnd env pages acc ids).2.2 = acc.2.2 + ids.length := by
  induction ids generalizing acc with
  | nil => simp [addThumbsAtEnd]
  | cons m ms ih =>
    unfold addThumbsAtEnd
    rw [List.foldl_cons]
    have := ih (acc.1 ++ [mkThumbEntry pages m],
      addThumbToRow env.sizing.padding (env.sizing.containerWidth : ℚ) acc.2.1
        (mkTile env m) true, acc.2.2 + 1)
    unfold addThumbsAtEnd at this
    refine ⟨?_, ?_⟩
    · rw [this.1]
      simp
    · rw [this.2]
      simp [Nat.add_assoc, Nat.add_comm 1 ms.length]

/-- The backward creation loop prepends one entry per ID (reversing their
order) and counts them. -/
theorem addThumbsAtBeginning_spec (env : RefreshEnv) (pages : List (MediaId × Int))
    (acc : List ThumbEntry × List RowModel × Nat) (ids : List MediaId) :
    (addThumbsAtBeginning env pages acc ids).1 =
        (ids.map (mkThumbEntry pages)).reverse ++ acc.1 ∧
      (addThumbsAtBeginning env pages acc ids).2.2 = acc.2.2 + ids.length := by
  induction ids generalizing acc with
  | nil => simp [addThumbsAtBeginning]
  | cons m ms ih =>
    unfold addThumbsAtBeginning
    rw [List.foldl_cons]
    have := ih (mkThumbEntry pages m :: acc.1,
      addThumbToRow env.sizing.padding (env.sizing.containerWidth : ℚ) acc.2.1
        (mkTile env m) false, acc.2.2 + 1)
    unfold addThumbsAtBeginning at this
    refine ⟨?_, ?_⟩
    · rw [this.1]
      simp
    · rw [this.2]
      simp [Nat.add_assoc, Nat.add_comm 1 ms.length]

/-- The two creation loops of `refreshImages` produce exactly the IDs
before the kept block, the kept block, and the IDs after it. -/
theorem applyWindow_ids (env : RefreshEnv) (pages : List (MediaId × Int))
    (mediaIds : List MediaId) (thumbs : List ThumbEntry) (rows : List RowModel)
    (f l : Int) :
    ((applyWindow env pages mediaIds thumbs rows f l).1.map (·.mediaId)) =
        mediaIds.take f.toNat ++ (thumbs.map (·.mediaId) ++
          mediaIds.drop (l + 1).toNat) ∧
      (applyWindow env pages mediaIds thumbs rows f l).2.2 =
        (mediaIds.take f.toNat).length + (mediaIds.drop (l + 1).toNat).length := by
  unfold applyWindow
  obtain ⟨he1, he2⟩ := addThumbsAtEnd_spec env pages (thumbs, rows, 0)
    (mediaIds.drop (l + 1).toNat)
  obtain ⟨hb1, hb2⟩ := addThumbsAtBeginning_spec env pages
    (addThumbsAtEnd env pages (thumbs, rows, 0) (mediaIds.drop (l + 1).toNat))
    (mediaIds.take f.toNat).reverse
  refine ⟨?_, ?_⟩
  · rw [hb1, he1]
    simp [List.map_reverse,
      show ((fun (x : ThumbEntry) => x.mediaId) ∘ mkThumbEntry pages) = id from rfl]
  · rw [hb2, he2]
    simp [Nat.add_comm]

/-- A successful `getDataSourceMediaIds` yields a duplicate-free list. -/
theorem getDataSourceMediaIds_ok_nodup (env : ExpansionEnv) (idl : IdList)
    (allMediaIds : List MediaId) (pagesM : List (MediaId × Int))
    (hok : getDataSourceMediaIds env idl = Except.ok (allMediaIds, pagesM)) :
    allMediaIds.Nodup := by
  unfold getDataSourceMediaIds at hok
  simp only [] at hok
  split at hok
  · rename_i hcond
    injection hok with hok
    injection hok with h1 h2
    rw [← h1]
    exact (dedup_length_eq_iff_nodup _).mp hcond
  · exact absurd hok (by simp)

/-- A non-empty `jsSlice` forces its bounds apart. -/
theorem jsSlice_lt_of_ne_nil {α : Type} (l : List α) (a b : Int)
    (h : jsSlice l a b ≠ []) : a < b := by
  unfold jsSlice at h
  by_contra hab
  have : (b - a).toNat = 0 := by omega
  rw [this] at h
  simp at h

/-- Range bounds are preserved by the growth loop. -/
theorem growRange_bounds (len d v fuel : Nat) (s e : Int)
    (h0 : 0 ≤ s) (hse : s ≤ e) (he : e ≤ (len : Int) - 1) :
    0 ≤ (growRange len d v fuel s e).1 ∧
      (growRange len d v fuel s e).1 ≤ (growRange len d v fuel s e).2 ∧
      (growRange len d v fuel s e).2 ≤ (len : Int) - 1 := by
  induction fuel generalizing s e with
  | zero => exact ⟨h0, hse, he⟩
  | succ n ih =>
    rw [growRange]
    split
    · exact ⟨h0, hse, he⟩
    · split
      · exact ⟨h0, hse, he⟩
      · apply ih <;> split <;> omega

/-- With fuel at least `len - (e - s + 1)`, the growth loop stops only at a
range satisfying its stopping condition (so the JS `while(1)` with
unbounded fuel terminates there too). -/
theorem growRange_stop (len d v fuel : Nat) (s e : Int)
    (h0 : 0 ≤ s) (hse : s ≤ e) (he : e ≤ (len : Int) - 1)
    (hfuel : (len : Int) ≤ (e - s + 1) + fuel) :
    stopCond len d v (growRange len d v fuel s e).1 (growRange len d v fuel s e).2 := by
  induction fuel generalizing s e with
  | zero =>
    have h : growRange len d v 0 s e = (s, e) := rfl
    rw [h]
    exact Or.inl (by omega)
  | succ n ih =>
    rw [growRange]
    split
    · exact Or.inl (by assumption)
    · split
      · exact Or.inr (by assumption)
      · rename_i h1 h2
        have hprog : 0 < s ∨ e + 1 < (len : Int) := by omega
        apply ih
        · split <;> omega
        · have : (if 0 < s then s - 1 else s) ≤ s := by split <;> omega
          have : e ≤ (if e + 1 < (len : Int) then e + 1 else e) := by split <;> omega
          omega
        · split <;> omega
        · split <;> split <;> omega

/-- If the stopping condition already holds, the growth loop is the
identity. -/
theorem growRange_fix (len d v fuel : Nat) (s e : Int)
    (h : stopCond len d v s e) : growRange len d v fuel s e = (s, e) := by
  cases fuel with
  | zero => rfl
  | succ n =>
    rw [growRange]
    split
    · rfl
    · split
      · rfl
      · rename_i h1 h2
        rcases h with h3 | h3
        · exact absurd h3 h1
        · exact absurd h3 h2

/-- Started at the left edge, the growth loop keeps the start at 0, only
grows the end, and stops as soon as the stopping condition allows: every
index below the result fails the stopping condition. -/
theorem growRange_zero_start (len d v fuel : Nat) (e : Int) (he : 0 ≤ e) :
    (growRange len d v fuel 0 e).1 = 0 ∧ e ≤ (growRange len d v fuel 0 e).2 ∧
      ∀ j : Int, e ≤ j → j < (growRange len d v fuel 0 e).2 →
        ¬ stopCond len d v 0 j := by
  induction fuel generalizing e with
  | zero =>
    have h : growRange len d v 0 0 e = (0, e) := rfl
    rw [h]
    exact ⟨rfl, le_refl e, fun j hj1 hj2 => absurd hj1 (by omega)⟩
  | succ n ih =>
    by_cases h1 : (len : Int) ≤ e - 0 + 1
    · rw [growRange_fix len d v (n + 1) 0 e (Or.inl h1)]
      exact ⟨rfl, le_refl e, fun j hj1 hj2 => absurd hj1 (by omega)⟩
    · by_cases h2 : (v : Int) ≤ (e - 0 + 1) * (d : Int)
      · rw [growRange_fix len d v (n + 1) 0 e (Or.inr h2)]
        exact ⟨rfl, le_refl e, fun j hj1 hj2 => absurd hj1 (by omega)⟩
      · have hlt : e + 1 < (len : Int) := by omega
        have hstep : growRange len d v (n + 1) 0 e = growRange len d v n 0 (e + 1) := by
          rw [growRange, if_neg h1, if_neg h2]
          simp only [lt_self_iff_false, if_false, if_pos hlt]
        rw [hstep]
        obtain ⟨ha, hb, hc⟩ := ih (e + 1) (by omega)
        refine ⟨ha, by omega, ?_⟩
        intro j hj1 hj2
        rcases eq_or_lt_of_le hj1 with hj | hj
        · intro hstop
          rw [← hj] at hstop
          rcases hstop with hx | hx
          · omega
          · exact h2 (by omega)
        · exact hc j (by omega) hj2

/-- C1's range bounds: on a non-empty list, `getMediaIdsToDisplay` returns
`0 ≤ startIdx ≤ endIdx ≤ length - 1`. -/
theorem getMediaIdsToDisplay_bounds (sizing : SizingStyle) (scrollHeight : Nat)
    (ios : Bool) (thumbs : List ThumbEntry) (allMediaIds : List MediaId)
    (targetMediaId : Option MediaId) (hne : allMediaIds ≠ []) :
    0 ≤ (getMediaIdsToDisplay sizing scrollHeight ios thumbs allMediaIds
        targetMediaId).1 ∧
      (getMediaIdsToDisplay sizing scrollHeight ios thumbs allMediaIds
        targetMediaId).1 ≤
        (getMediaIdsToDisplay sizing scrollHeight ios thumbs allMediaIds
          targetMediaId).2 ∧
      (getMediaIdsToDisplay sizing scrollHeight ios thumbs allMediaIds
        targetMediaId).2 ≤ (allMediaIds.length : Int) - 1 := by
  have hlen : 1 ≤ allMediaIds.length := by
    cases allMediaIds with
    | nil => exact absurd rfl hne
    | cons a l => simp
  have hlen0 : allMediaIds.length ≠ 0 := by omega
  have hseed := seedRange_fst_le ios thumbs allMediaIds targetMediaId hne
  unfold getMediaIdsToDisplay
  rw [if_neg hlen0]
  simp only
  apply growRange_bounds
  · exact le_max_right _ 0
  · exact le_max_left _ _
  · have h1 : max (seedRange ios thumbs allMediaIds targetMediaId).1 0 ≤
        (allMediaIds.length : Int) - 1 := by omega
    have h2 : min (seedRange ios thumbs allMediaIds targetMediaId).2
        ((allMediaIds.length : Int) - 1) ≤ (allMediaIds.length : Int) - 1 :=
      min_le_right _ _
    exact max_le h1 h2

/-- Evaluation of `refreshImages` when the data source flattening
succeeds, with the purge-conditional state spelled out. -/
theorem refreshImages_ok_unfold (env : RefreshEnv) (idl : IdList) (st : SearchState)
    (args : RefreshArgs) (allMediaIds : List MediaId) (pagesM : List (MediaId × Int))
    (hok : getDataSourceMediaIds env.expansion idl = Except.ok (allMediaIds, pagesM)) :
    refreshImages env idl st args =
      (if effectivePurge env st args then
        refreshImagesCore env st args allMediaIds pagesM [] [] st.thumbs.length
      else
        refreshImagesCore env st args allMediaIds pagesM st.thumbs st.rows 0) := by
  cases hp : effectivePurge env st args with
  | false =>
    rw [if_neg Bool.false_ne_true]
    unfold refreshImages
    rw [hp, hok]
    rfl
  | true =>
    rw [if_pos rfl]
    unfold refreshImages
    rw [hp, hok]
    rfl

/-- Whatever the prior state, a completed `refreshImagesCore` materializes
exactly the IDs of the slice chosen by `getMediaIdsToDisplay`. -/
theorem refreshImagesCore_ids (env : RefreshEnv) (st : SearchState)
    (args : RefreshArgs) (allMediaIds : List MediaId)
    (pagesM : List (MediaId × Int)) (thumbs0 : List ThumbEntry)
    (rows0 : List RowModel) (destroyed0 : Nat) :
    (refreshImagesCore env st args allMediaIds pagesM thumbs0 rows0
        destroyed0).ok = true ∧
      (refreshImagesCore env st args allMediaIds pagesM thumbs0 rows0
          destroyed0).st.thumbs.map (·.mediaId) =
        jsSlice allMediaIds
          (getMediaIdsToDisplay env.sizing env.scrollHeight env.ios thumbs0
            allMediaIds (remapTarget allMediaIds (requestedTarget env st args))).1
          ((getMediaIdsToDisplay env.sizing env.scrollHeight env.ios thumbs0
            allMediaIds
            (remapTarget allMediaIds (requestedTarget env st args))).2 + 1) := by
  unfold refreshImagesCore
  simp only []
  by_cases hinc : jsIndexOfOpt
        (jsSlice allMediaIds
          (getMediaIdsToDisplay env.sizing env.scrollHeight env.ios thumbs0
            allMediaIds (remapTarget allMediaIds (requestedTarget env st args))).1
          ((getMediaIdsToDisplay env.sizing env.scrollHeight env.ios thumbs0
            allMediaIds
            (remapTarget allMediaIds (requestedTarget env st args))).2 + 1))
        ((thumbs0.map (·.mediaId)).head?) ≠ -1 ∧
      jsIndexOfOpt
        (jsSlice allMediaIds
          (getMediaIdsToDisplay env.sizing env.scrollHeight env.ios thumbs0
            allMediaIds (remapTarget allMediaIds (requestedTarget env st args))).1
          ((getMediaIdsToDisplay env.sizing env.scrollHeight env.ios thumbs0
            allMediaIds
            (remapTarget allMediaIds (requestedTarget env st args))).2 + 1))
        ((thumbs0.map (·.mediaId)).getLast?) ≠ -1 ∧
      jsSlice
        (jsSlice allMediaIds
          (getMediaIdsToDisplay env.sizing env.scrollHeight env.ios thumbs0
            allMediaIds (remapTarget allMediaIds (requestedTarget env st args))).1
          ((getMediaIdsToDisplay env.sizing env.scrollHeight env.ios thumbs0
            allMediaIds
            (remapTarget allMediaIds (requestedTarget env st args))).2 + 1))
        (jsIndexOfOpt
          (jsSlice allMediaIds
            (getMediaIdsToDisplay env.sizing env.scrollHeight env.ios thumbs0
              allMediaIds (remapTarget allMediaIds (requestedTarget env st args))).1
            ((getMediaIdsToDisplay env.sizing env.scrollHeight env.ios thumbs0
              allMediaIds
              (remapTarget allMediaIds (requestedTarget env st args))).2 + 1))
          ((thumbs0.map (·.mediaId)).head?))
        (jsIndexOfOpt
          (jsSlice allMediaIds
            (getMediaIdsToDisplay env.sizing env.scrollHeight env.ios thumbs0
              allMediaIds (remapTarget allMediaIds (requestedTarget env st args))).1
            ((getMediaIdsToDisplay env.sizing env.scrollHeight env.ios thumbs0
              allMediaIds
              (remapTarget allMediaIds (requestedTarget env st args))).2 + 1))
          ((thumbs0.map (·.mediaId)).getLast?) + 1) =
        thumbs0.map (·.mediaId)
  · rw [if_pos hinc]
    refine ⟨by trivial, ?_⟩
    obtain ⟨hids, _⟩ := applyWindow_ids env pagesM
      (jsSlice allMediaIds
        (getMediaIdsToDisplay env.sizing env.scrollHeight env.ios thumbs0
          allMediaIds (remapTarget allMediaIds (requestedTarget env st args))).1
        ((getMediaIdsToDisplay env.sizing env.scrollHeight env.ios thumbs0
          allMediaIds
          (remapTarget allMediaIds (requestedTarget env st args))).2 + 1))
      thumbs0 rows0
      (jsIndexOfOpt
        (jsSlice allMediaIds
          (getMediaIdsToDisplay env.sizing env.scrollHeight env.ios thumbs0
            allMediaIds (remapTarget allMediaIds (requestedTarget env st args))).1
          ((getMediaIdsToDisplay env.sizing env.scrollHeight env.ios thumbs0
            allMediaIds
            (remapTarget allMediaIds (requestedTarget env st args))).2 + 1))
        ((thumbs0.map (·.mediaId)).head?))
      (jsIndexOfOpt
        (jsSlice allMediaIds
          (getMediaIdsToDisplay env.sizing env.scrollHeight env.ios thumbs0
            allMediaIds (remapTarget allMediaIds (requestedTarget env st args))).1
          ((getMediaIdsToDisplay env.sizing env.scrollHeight env.ios thumbs0
            allMediaIds
            (remapTarget allMediaIds (requestedTarget env st args))).2 + 1))
        ((thumbs0.map (·.mediaId)).getLast?))
    rw [hids]
    have hcurne : thumbs0.map (·.mediaId) ≠ [] := by
      intro hnil
      apply hinc.1
      rw [hnil]
      rfl
    have hslice_ne : jsSlice
        (jsSlice allMediaIds
          (getMediaIdsToDisplay env.sizing env.scrollHeight env.ios thumbs0
            allMediaIds (remapTarget allMediaIds (requestedTarget env st args))).1
          ((getMediaIdsToDisplay env.sizing env.scrollHeight env.ios thumbs0
            allMediaIds
            (remapTarget allMediaIds (requestedTarget env st args))).2 + 1))
        (jsIndexOfOpt
          (jsSlice allMediaIds
            (getMediaIdsToDisplay env.sizing env.scrollHeight env.ios thumbs0
              allMediaIds (remapTarget allMediaIds (requestedTarget env st args))).1
            ((getMediaIdsToDisplay env.sizing env.scrollHeight env.ios thumbs0
              allMediaIds
              (remapTarget allMediaIds (requestedTarget env st args))).2 + 1))
          ((thumbs0.map (·.mediaId)).head?))
        (jsIndexOfOpt
          (jsSlice allMediaIds
            (getMediaIdsToDisplay env.sizing env.scrollHeight env.ios thumbs0
              allMediaIds (remapTarget allMediaIds (requestedTarget env st args))).1
            ((getMediaIdsToDisplay env.sizing env.scrollHeight env.ios thumbs0
              allMediaIds
              (remapTarget allMediaIds (requestedTarget env st args))).2 + 1))
          ((thumbs0.map (·.mediaId)).getLast?) + 1) ≠ [] := by
      rw [hinc.2.2]
      exact hcurne
    have hflt := jsSlice_lt_of_ne_nil _ _ _ hslice_ne
    have hf0 := (jsIndexOfOpt_nonneg_of_ne _ _ hinc.1).1
    have hmain := take_jsSlice_drop
      (jsSlice allMediaIds
        (getMediaIdsToDisplay env.sizing env.scrollHeight env.ios thumbs0
          allMediaIds (remapTarget allMediaIds (requestedTarget env st args))).1
        ((getMediaIdsToDisplay env.sizing env.scrollHeight env.ios thumbs0
          allMediaIds
          (remapTarget allMediaIds (requestedTarget env st args))).2 + 1))
      (jsIndexOfOpt
        (jsSlice allMediaIds
          (getMediaIdsToDisplay env.sizing env.scrollHeight env.ios thumbs0
            allMediaIds (remapTarget allMediaIds (requestedTarget env st args))).1
          ((getMediaIdsToDisplay env.sizing env.scrollHeight env.ios thumbs0
            allMediaIds
            (remapTarget allMediaIds (requestedTarget env st args))).2 + 1))
        ((thumbs0.map (·.mediaId)).head?))
      (jsIndexOfOpt
        (jsSlice allMediaIds
          (getMediaIdsToDisplay env.sizing env.scrollHeight env.ios thumbs0
            allMediaIds (remapTarget allMediaIds (requestedTarget env st args))).1
          ((getMediaIdsToDisplay env.sizing env.scrollHeight env.ios thumbs0
            allMediaIds
            (remapTarget allMediaIds (requestedTarget env st args))).2 + 1))
        ((thumbs0.map (·.mediaId)).getLast?))
      hf0 (by omega)
    rw [hinc.2.2] at hmain
    exact hmain
  · rw [if_neg hinc]
    refine ⟨by trivial, ?_⟩
    by_cases hres : jsIndexOfOpt
        (jsSlice allMediaIds
          (getMediaIdsToDisplay env.sizing env.scrollHeight env.ios thumbs0
            allMediaIds (remapTarget allMediaIds (requestedTarget env st args))).1
          ((getMediaIdsToDisplay env.sizing env.scrollHeight env.ios thumbs0
            allMediaIds
            (remapTarget allMediaIds (requestedTarget env st args))).2 + 1))
        (remapTarget allMediaIds (requestedTarget env st args)) ≠ -1
    · rw [if_pos hres]
      obtain ⟨hids, _⟩ := applyWindow_ids env pagesM
        (jsSlice allMediaIds
          (getMediaIdsToDisplay env.sizing env.scrollHeight env.ios thumbs0
            allMediaIds (remapTarget allMediaIds (requestedTarget env st args))).1
          ((getMediaIdsToDisplay env.sizing env.scrollHeight env.ios thumbs0
            allMediaIds
            (remapTarget allMediaIds (requestedTarget env st args))).2 + 1))
        ([] : List ThumbEntry) ([] : List RowModel)
        (jsIndexOfOpt
          (jsSlice allMediaIds
            (getMediaIdsToDisplay env.sizing env.scrollHeight env.ios thumbs0
              allMediaIds (remapTarget allMediaIds (requestedTarget env st args))).1
            ((getMediaIdsToDisplay env.sizing env.scrollHeight env.ios thumbs0
              allMediaIds
              (remapTarget allMediaIds (requestedTarget env st args))).2 + 1))
          (remapTarget allMediaIds (requestedTarget env st args)))
        (jsIndexOfOpt
          (jsSlice allMediaIds
            (getMediaIdsToDisplay env.sizing env.scrollHeight env.ios thumbs0
              allMediaIds (remapTarget allMediaIds (requestedTarget env st args))).1
            ((getMediaIdsToDisplay env.sizing env.scrollHeight env.ios thumbs0
              allMediaIds
              (remapTarget allMediaIds (requestedTarget env st args))).2 + 1))
          (remapTarget allMediaIds (requestedTarget env st args)) - 1)
      rw [hids]
      have hre : jsIndexOfOpt
          (jsSlice allMediaIds
            (getMediaIdsToDisplay env.sizing env.scrollHeight env.ios thumbs0
              allMediaIds (remapTarget allMediaIds (requestedTarget env st args))).1
            ((getMediaIdsToDisplay env.sizing env.scrollHeight env.ios thumbs0
              allMediaIds
              (remapTarget allMediaIds (requestedTarget env st args))).2 + 1))
          (remapTarget allMediaIds (requestedTarget env st args)) - 1 + 1 =
          jsIndexOfOpt
          (jsSlice allMediaIds
            (getMediaIdsToDisplay env.sizing env.scrollHeight env.ios thumbs0
              allMediaIds (remapTarget allMediaIds (requestedTarget env st args))).1
            ((getMediaIdsToDisplay env.sizing env.scrollHeight env.ios thumbs0
              allMediaIds
              (remapTarget allMediaIds (requestedTarget env st args))).2 + 1))
          (remapTarget allMediaIds (requestedTarget env st args)) := by ring
      rw [hre]
      simp [List.take_append_drop]
    · rw [if_neg hres]
      obtain ⟨hids, _⟩ := applyWindow_ids env pagesM
        (jsSlice allMediaIds
          (getMediaIdsToDisplay env.sizing env.scrollHeight env.ios thumbs0
            allMediaIds (remapTarget allMediaIds (requestedTarget env st args))).1
          ((getMediaIdsToDisplay env.sizing env.scrollHeight env.ios thumbs0
            allMediaIds
            (remapTarget allMediaIds (requestedTarget env st args))).2 + 1))
        ([] : List ThumbEntry) ([] : List RowModel) (0 : Int) (-1 : Int)
      rw [hids]
      simp

/-! ## Claims -/

/-- C10: whenever the data source's initial page is already loaded or
loading and zero thumbnails are materialized, `_dataSourcePageToLoad`
returns null, so no further page load is requested; pagination on an empty
view never scans pages. -/
theorem emptyView_no_page_load (ds : DataSourceAPI)
    (h : ds.isPageLoadedOrLoading ds.initialPage = true) :
    dataSourcePageToLoad ds [] = none := by
  unfold dataSourcePageToLoad
  rw [h]
  simp

/-- Witness for C10 at a concrete data source. -/
theorem emptyView_no_page_load_witness :
    dsForward.isPageLoadedOrLoading dsForward.initialPage = true ∧
      dataSourcePageToLoad dsForward [] = none :=
  ⟨by decide, emptyView_no_page_load dsForward (by decide)⟩

/-- C9: `restoreScrollPosition` succeeds exactly when the record is
non-null and its media ID is among the materialized thumbs; on success it
sets the scroll position from the record's element position and saved
offset, on failure it leaves the scroll position unchanged and the
`_setDataSource` caller falls back to scrolling to the top. -/
theorem restoreScrollPosition_spec (pos : MediaId → ℚ) (thumbs : List ThumbEntry)
    (scrollTop : ℚ) (scroll : Option ScrollRecord) :
    ((restoreScrollPosition pos thumbs scrollTop scroll).1 = true ↔
      ∃ record, scroll = some record ∧ record.mediaId ∈ thumbs.map (·.mediaId)) ∧
    ((restoreScrollPosition pos thumbs scrollTop scroll).1 = true →
      ∀ record, scroll = some record →
        (restoreScrollPosition pos thumbs scrollTop scroll).2 =
          pos record.mediaId - record.savedScroll) ∧
    ((restoreScrollPosition pos thumbs scrollTop scroll).1 = false →
      (restoreScrollPosition pos thumbs scrollTop scroll).2 = scrollTop ∧
        setDataSourceScrollTail pos thumbs scrollTop scroll = 0) := by
  have hmem : ∀ record : ScrollRecord,
      (getThumbnailForMediaId thumbs record.mediaId).isSome ↔
        record.mediaId ∈ thumbs.map (·.mediaId) := by
    intro record
    unfold getThumbnailForMediaId
    rw [List.find?_isSome]
    constructor
    · rintro ⟨t, ht, hp⟩
      exact List.mem_map.mpr ⟨t, ht, by simpa using hp⟩
    · intro hm
      rcases List.mem_map.mp hm with ⟨t, ht, hp⟩
      exact ⟨t, ht, by simp [hp]⟩
  cases scroll with
  | none =>
    refine ⟨?_, ?_, ?_⟩
    · simp [restoreScrollPosition]
    · intro h
      simp [restoreScrollPosition] at h
    · intro _
      exact ⟨rfl, by simp [setDataSourceScrollTail, restoreScrollPosition]⟩
  | some record =>
    cases hfind : getThumbnailForMediaId thumbs record.mediaId with
    | none =>
      have hnm : ¬ record.mediaId ∈ thumbs.map (·.mediaId) := by
        intro hm
        have := (hmem record).mpr hm
        rw [hfind] at this
        simp at this
      refine ⟨?_, ?_, ?_⟩
      · simp only [restoreScrollPosition, hfind]
        constructor
        · intro h
          simp at h
        · rintro ⟨r2, hr2, hm2⟩
          injection hr2 with hr2
          rw [← hr2] at hm2
          exact absurd hm2 hnm
      · intro h
        simp only [restoreScrollPosition, hfind] at h
        simp at h
      · intro _
        refine ⟨by simp [restoreScrollPosition, hfind], ?_⟩
        simp [setDataSourceScrollTail, restoreScrollPosition, hfind]
    | some t =>
      have hm : record.mediaId ∈ thumbs.map (·.mediaId) := by
        apply (hmem record).mp
        rw [hfind]
        rfl
      refine ⟨?_, ?_, ?_⟩
      · simp only [restoreScrollPosition, hfind]
        exact ⟨fun _ => ⟨record, rfl, hm⟩, fun _ => trivial⟩
      · intro _ r2 hr2
        injection hr2 with hr2
        subst hr2
        simp [restoreScrollPosition, hfind, helpersRestoreScroll]
      · intro h
        simp [restoreScrollPosition, hfind] at h

/-- Witness for C9: restoring around a materialized thumb succeeds, and a
missing record leaves a scroll position of 47 unchanged with the caller
falling back to 0. -/
theorem restoreScrollPosition_spec_witness :
    (restoreScrollPosition (fun _ => 100) [thumbOnPage4] 47
        (some ⟨⟨1, 0⟩, 30⟩)).1 = true ∧
      (restoreScrollPosition (fun _ => 100) [thumbOnPage4] 47
        (some ⟨⟨1, 0⟩, 30⟩)).2 = 100 - 30 ∧
      setDataSourceScrollTail (fun _ => 100) [thumbOnPage4] 47 none = 0 := by
  have h1 := (restoreScrollPosition_spec (fun _ => 100) [thumbOnPage4] 47
    (some ⟨⟨1, 0⟩, 30⟩)).2.1 (by decide) ⟨⟨1, 0⟩, 30⟩ rfl
  have h2 := (restoreScrollPosition_spec (fun _ => 100) [thumbOnPage4] 47
    (none : Option ScrollRecord)).2.2 (by decide)
  exact ⟨by decide, h1, h2.2⟩

/-- C7 counterexample: with the first (and only) thumb on page 2 flagged
nearby and page 1 neither loaded nor in flight, `_dataSourcePageToLoad`
requests page 1 even though the data source reports no page as loadable,
so the backward direction does not require loadability as the claim
states. -/
theorem backward_load_ignores_canLoadPage :
    dataSourcePageToLoad dsNoneLoadable [thumbOnPage2] = some 1 ∧
      dsNoneLoadable.canLoadPage 1 = false ∧
      dsNoneLoadable.isPageLoadedOrLoading 1 = false := by
  refine ⟨?_, rfl, by decide⟩
  decide

/-- C7 (amended): a page load is requested only for the initial page, for
the page after the last thumb's page when that thumb is nearby and the
page is loadable and not loaded or in flight, or for the page before the
first thumb's page when that thumb is nearby and the page is not loaded or
in flight (loadability is not checked backward); and the
`GuardedRunner` guard keeps at most one load operation in flight: a call
while one is running returns the existing in-flight promise and starts
nothing new, however often it is repeated. -/
theorem dataSourcePageToLoad_spec (ds : DataSourceAPI) (thumbs : List ThumbEntry)
    (p : Int) :
    (dataSourcePageToLoad ds thumbs = some p →
      (ds.isPageLoadedOrLoading ds.initialPage = false ∧ p = ds.initialPage) ∨
      (∃ firstThumb rest,
        thumbs = firstThumb :: rest ∧
        ((firstThumb :: rest).getLast (List.cons_ne_nil _ _)).nearby = true ∧
        p = ((firstThumb :: rest).getLast (List.cons_ne_nil _ _)).searchPage + 1 ∧
        ds.canLoadPage p = true ∧ ds.isPageLoadedOrLoading p = false) ∨
      (∃ firstThumb rest,
        thumbs = firstThumb :: rest ∧ firstThumb.nearby = true ∧
        p = firstThumb.searchPage - 1 ∧ ds.isPageLoadedOrLoading p = false)) ∧
    (∀ (runner : RunnerState) (n : Nat), runner.isRunning = false →
      (loadDataSourcePage runner n).1.isRunning = true ∧
      (loadDataSourcePage runner n).2 = n ∧
      ∀ m : Nat,
        loadDataSourcePage (loadDataSourcePage runner n).1 m =
          ((loadDataSourcePage runner n).1, n)) := by
  constructor
  · intro h
    unfold dataSourcePageToLoad at h
    split at h
    · rename_i hinit
      left
      injection h with h
      exact ⟨by simpa using hinit, h.symm⟩
    · rename_i hinit
      cases thumbs with
      | nil => exact absurd h (by simp)
      | cons firstThumb rest =>
        simp only at h
        by_cases hlast : ((firstThumb :: rest).getLast (List.cons_ne_nil _ _)).nearby
        · rw [if_pos hlast] at h
          by_cases hfwd : ds.canLoadPage
                (((firstThumb :: rest).getLast (List.cons_ne_nil _ _)).searchPage + 1) ∧
              ¬ ds.isPageLoadedOrLoading
                (((firstThumb :: rest).getLast (List.cons_ne_nil _ _)).searchPage + 1)
          · rw [if_pos hfwd] at h
            injection h with h
            right; left
            exact ⟨firstThumb, rest, rfl, hlast, h.symm,
              by rw [← h]; exact hfwd.1,
              by rw [← h]; simpa using hfwd.2⟩
          · rw [if_neg hfwd] at h
            simp only at h
            by_cases hfirst : firstThumb.nearby
            · rw [if_pos hfirst] at h
              by_cases hbwd : ¬ ds.isPageLoadedOrLoading (firstThumb.searchPage - 1)
              · rw [if_pos hbwd] at h
                injection h with h
                right; right
                exact ⟨firstThumb, rest, rfl, hfirst, h.symm,
                  by rw [← h]; simpa using hbwd⟩
              · rw [if_neg hbwd] at h
                exact absurd h (by simp)
            · rw [if_neg hfirst] at h
              exact absurd h (by simp)
        · rw [if_neg hlast] at h
          simp only at h
          by_cases hfirst : firstThumb.nearby
          · rw [if_pos hfirst] at h
            by_cases hbwd : ¬ ds.isPageLoadedOrLoading (firstThumb.searchPage - 1)
            · rw [if_pos hbwd] at h
              injection h with h
              right; right
              exact ⟨firstThumb, rest, rfl, hfirst, h.symm,
                by rw [← h]; simpa using hbwd⟩
            · rw [if_neg hbwd] at h
              exact absurd h (by simp)
          · rw [if_neg hfirst] at h
            exact absurd h (by simp)
  · intro runner n hrun
    have h1 : loadDataSourcePage runner n = (⟨true, n⟩, n) := by
      unfold loadDataSourcePage
      rw [if_neg (by simp [hrun])]
    rw [h1]
    refine ⟨rfl, rfl, ?_⟩
    intro m
    unfold loadDataSourcePage
    rw [if_pos rfl]

/-- Witness for C7 (amended): the spec scenario (pages 2..4 loaded, last
thumb on page 4 nearby) characterizes a `loadPage(5)` request, and a
second `loadDataSourcePage` call while one is in flight returns the same
promise without starting a new load. -/
theorem dataSourcePageToLoad_spec_witness :
    ((dsForward.isPageLoadedOrLoading dsForward.initialPage = false ∧
        (5 : Int) = dsForward.initialPage) ∨
      (∃ firstThumb rest,
        [thumbOnPage4] = firstThumb :: rest ∧
        ((firstThumb :: rest).getLast (List.cons_ne_nil _ _)).nearby = true ∧
        (5 : Int) = ((firstThumb :: rest).getLast (List.cons_ne_nil _ _)).searchPage + 1 ∧
        dsForward.canLoadPage 5 = true ∧ dsForward.isPageLoadedOrLoading 5 = false) ∨
      (∃ firstThumb rest,
        [thumbOnPage4] = firstThumb :: rest ∧ firstThumb.nearby = true ∧
        (5 : Int) = firstThumb.searchPage - 1 ∧
        dsForward.isPageLoadedOrLoading 5 = false)) ∧
    ((loadDataSourcePage ⟨false, 0⟩ 5).1.isRunning = true ∧
      (loadDataSourcePage ⟨false, 0⟩ 5).2 = 5 ∧
      ∀ m : Nat,
        loadDataSourcePage (loadDataSourcePage ⟨false, 0⟩ 5).1 m =
          ((loadDataSourcePage ⟨false, 0⟩ 5).1, 5)) :=
  ⟨(dataSourcePageToLoad_spec dsForward [thumbOnPage4] 5).1 (by decide),
   (dataSourcePageToLoad_spec dsForward [thumbOnPage4] 5).2 ⟨false, 0⟩ 5 rfl⟩

/-- C6: with no materialized thumbs and no target, `getMediaIdsToDisplay`
seeds the range at `[0,0]` and grows only the end one index at a time,
stopping as soon as tile count times the per-tile pixel budget reaches
twice the viewport pixel area or the range covers all ids: the result is
`[0, k]` where `k` is the least index satisfying the stopping condition
(so a 500-entry list with a normal viewport never materializes all 500). -/
theorem getMediaIdsToDisplay_initial (sizing : SizingStyle) (scrollHeight : Nat)
    (ios : Bool) (allMediaIds : List MediaId) (hne : allMediaIds ≠ []) :
    (getMediaIdsToDisplay sizing scrollHeight ios [] allMediaIds none).1 = 0 ∧
    0 ≤ (getMediaIdsToDisplay sizing scrollHeight ios [] allMediaIds none).2 ∧
    (getMediaIdsToDisplay sizing scrollHeight ios [] allMediaIds none).2 ≤
      (allMediaIds.length : Int) - 1 ∧
    stopCond allMediaIds.length sizing.desiredPixels
      (sizing.containerWidth * scrollHeight * 2) 0
      (getMediaIdsToDisplay sizing scrollHeight ios [] allMediaIds none).2 ∧
    (∀ j : Int, 0 ≤ j →
      j < (getMediaIdsToDisplay sizing scrollHeight ios [] allMediaIds none).2 →
      ¬ stopCond allMediaIds.length sizing.desiredPixels
        (sizing.containerWidth * scrollHeight * 2) 0 j) ∧
    (∀ j : Int, 0 ≤ j →
      stopCond allMediaIds.length sizing.desiredPixels
        (sizing.containerWidth * scrollHeight * 2) 0 j →
      (getMediaIdsToDisplay sizing scrollHeight ios [] allMediaIds none).2 ≤ j) := by
  have hlen : allMediaIds.length ≠ 0 := by simpa using hne
  have hseed : seedRange ios [] allMediaIds none = (0, 0) := rfl
  have hform : getMediaIdsToDisplay sizing scrollHeight ios [] allMediaIds none =
      growRange allMediaIds.length sizing.desiredPixels
        (sizing.containerWidth * scrollHeight * 2) allMediaIds.length 0 0 := by
    unfold getMediaIdsToDisplay
    rw [if_neg hlen, hseed]
    have h1 : max (0 : Int) 0 = 0 := by norm_num
    have h2 : min (0 : Int) ((allMediaIds.length : Int) - 1) = 0 :=
      min_eq_left (by omega)
    simp only [h1, h2]
  rw [hform]
  obtain ⟨ha, hb, hc⟩ := growRange_zero_start allMediaIds.length sizing.desiredPixels
    (sizing.containerWidth * scrollHeight * 2) allMediaIds.length 0 (le_refl 0)
  have hstop := growRange_stop allMediaIds.length sizing.desiredPixels
    (sizing.containerWidth * scrollHeight * 2) allMediaIds.length 0 0
    (le_refl 0) (le_refl 0) (by omega) (by omega)
  have hbnd := growRange_bounds allMediaIds.length sizing.desiredPixels
    (sizing.containerWidth * scrollHeight * 2) allMediaIds.length 0 0
    (le_refl 0) (le_refl 0) (by omega)
  rw [ha] at hstop
  refine ⟨ha, by omega, hbnd.2.2, hstop, fun j hj1 hj2 => hc j hj1 hj2, ?_⟩
  intro j hj1 hjstop
  by_contra hlt
  exact hc j hj1 (by omega) hjstop

set_option maxRecDepth 40000 in
/-- Witness for C6: the 500-id scenario with a 1000x800 viewport returns
the small range `[0, 9]`, far from the full 500. -/
theorem getMediaIdsToDisplay_initial_witness :
    allIds500 ≠ [] ∧
    (getMediaIdsToDisplay sizingC6 800 false [] allIds500 none).1 = 0 ∧
    getMediaIdsToDisplay sizingC6 800 false [] allIds500 none = (0, 9) ∧
    (9 : Int) < (allIds500.length : Int) - 1 :=
  ⟨by decide,
   (getMediaIdsToDisplay_initial sizingC6 800 false allIds500 (by decide)).1,
   by decide, by decide⟩

/-- C5: an incoming tile is tentatively added to the open row at its edge
(`_getOpenRow` guarantees that row is open); exactly when the row's content
width (tiles plus gaps) then exceeds the container width, the tile is
removed, that row is closed (its tiles finalized), and the tile is placed
alone on a new open row at the same edge; otherwise the row stays open
with the tile in it. -/
theorem addThumbToRow_spec (padding W : ℚ) (rows : List RowModel) (node : TileNode)
    (atEnd : Bool) :
    (openEdge rows atEnd).isOpen = true ∧
    (atEnd = true →
      (rowContentWidth padding ((openEdge rows true).tiles ++ [node]) ≤ W →
        addThumbToRow padding W rows node true =
          openRest rows true ++
            [{ tiles := (openEdge rows true).tiles ++ [node], isOpen := true }]) ∧
      (¬ rowContentWidth padding ((openEdge rows true).tiles ++ [node]) ≤ W →
        addThumbToRow padding W rows node true =
          openRest rows true ++
            [{ tiles := closeRowTiles padding W (openEdge rows true).tiles,
               isOpen := false },
             { tiles := [node], isOpen := true }])) ∧
    (atEnd = false →
      (rowContentWidth padding (node :: (openEdge rows false).tiles) ≤ W →
        addThumbToRow padding W rows node false =
          { tiles := node :: (openEdge rows false).tiles, isOpen := true } ::
            openRest rows false) ∧
      (¬ rowContentWidth padding (node :: (openEdge rows false).tiles) ≤ W →
        addThumbToRow padding W rows node false =
          { tiles := [node], isOpen := true } ::
            { tiles := closeRowTiles padding W (openEdge rows false).tiles,
              isOpen := false } :: openRest rows false)) := by
  refine ⟨?_, fun _ => addThumbToRow_atEnd padding W rows node,
    fun _ => addThumbToRow_atFront padding W rows node⟩
  cases atEnd with
  | true => exact (getOpenRow_true_eq rows).2
  | false => exact (getOpenRow_false_eq rows).2

/-- Witness for C5: a tile fitting an empty view lands on a fresh open
row; a fourth 300px tile in a full 1000px-wide row (content 1230px > 1000)
closes the row and starts a new one holding just that tile. -/
theorem addThumbToRow_spec_witness :
    addThumbToRow 10 1000 [] tile300 true =
      openRest [] true ++
        [{ tiles := (openEdge [] true).tiles ++ [tile300], isOpen := true }] ∧
    addThumbToRow 10 1000 rowsThree tile300 true =
      openRest rowsThree true ++
        [{ tiles := closeRowTiles 10 1000 (openEdge rowsThree true).tiles,
           isOpen := false },
         { tiles := [tile300], isOpen := true }] := by
  constructor
  · apply ((addThumbToRow_spec 10 1000 [] tile300 true).2.1 rfl).1
    have h : openEdge [] true = emptyOpenRow := rfl
    rw [h]
    norm_num [rowContentWidth, sumWidths, emptyOpenRow, tile300]
  · apply ((addThumbToRow_spec 10 1000 rowsThree tile300 true).2.1 rfl).2
    have h : openEdge rowsThree true =
        { tiles := [tile300, tile300, tile300], isOpen := true } := rfl
    rw [h]
    norm_num [rowContentWidth, sumWidths, tile300]

/-- C4 counterexample: three 300x300 tiles in a 1000px container with a
10px gap do land in one row, but closing it scales each tile to
7500/23 ≈ 326.09px (not ≈326.7px), and the row's total content width
(tiles plus gaps) ends at 22960/23 ≈ 998.26px, not the container width —
the third pass rescales the tiles as if the fixed gaps scaled too, so the
claimed row-width invariant fails. -/
theorem closeRow_width_counterexample :
    addThumbToRow 10 1000
        (addThumbToRow 10 1000 (addThumbToRow 10 1000 [] tile300 true) tile300 true)
        tile300 true = rowsThree ∧
      (closeRowTiles 10 1000 [tile300, tile300, tile300]).map (·.w) =
        [7500 / 23, 7500 / 23, 7500 / 23] ∧
      rowContentWidth 10 (closeRowTiles 10 1000 [tile300, tile300, tile300]) =
        22960 / 23 ∧
      rowContentWidth 10 (closeRowTiles 10 1000 [tile300, tile300, tile300]) ≠ 1000 ∧
      (7500 : ℚ) / 23 ≠ 3267 / 10 := by
  have hr : List.range 3 = [0, 1, 2] := rfl
  refine ⟨?_, ?_, ?_, ?_, by norm_num⟩
  · norm_num [addThumbToRow, getOpenRow, modifyLast, emptyOpenRow, rowContentWidth,
      sumWidths, tile300, rowsThree]
  · norm_num [closeRowTiles, pass3, pass2, pass1, pass1Step, maxHeight, sumWidths,
      tile300, hr, List.foldl, min_def, max_def]
  · norm_num [closeRowTiles, pass3, pass2, pass1, pass1Step, maxHeight, sumWidths,
      rowContentWidth, tile300, hr, List.foldl, min_def, max_def]
  · norm_num [closeRowTiles, pass3, pass2, pass1, pass1Step, maxHeight, sumWidths,
      rowContentWidth, tile300, hr, List.foldl, min_def, max_def]

/-- C4 (amended): for a non-empty closed row of positive tiles whose
content fit the container, all tiles end at equal height; the final
content width (tiles plus gaps) equals `W + g * (1 - W / T)` where `g` is
the total gap width and `T` the content width entering the third pass — it
equals the container width `W` exactly only when the gaps are zero or the
row already filled the container, because the third pass scales tile
widths by `W / T` while the gaps stay fixed. -/
theorem closeRow_spec (padding W : ℚ) (tiles : List TileNode)
    (hpos : posTiles tiles) (hfit : rowContentWidth padding tiles ≤ W)
    (hT : padding * ((tiles.length : ℚ) - 1) +
        sumWidths (pass2 (pass1 padding W tiles)) ≠ 0) :
    (∀ t1 ∈ closeRowTiles padding W tiles, ∀ t2 ∈ closeRowTiles padding W tiles,
      t1.h = t2.h) ∧
    rowContentWidth padding (closeRowTiles padding W tiles) =
      W + padding * ((tiles.length : ℚ) - 1) *
        (1 - W / (padding * ((tiles.length : ℚ) - 1) +
          sumWidths (pass2 (pass1 padding W tiles)))) := by
  obtain ⟨hpos1, hfit1, hlen1⟩ := pass1_good padding W tiles hpos hfit
  have hheights := pass2_heights (pass1 padding W tiles) (fun t ht => (hpos1 t ht).2)
  constructor
  · intro t1 h1 t2 h2
    unfold closeRowTiles pass3 at h1 h2
    rcases List.mem_map.mp h1 with ⟨u1, hu1, he1⟩
    rcases List.mem_map.mp h2 with ⟨u2, hu2, he2⟩
    rw [← he1, ← he2]
    show u1.h * _ = u2.h * _
    rw [hheights u1 hu1, hheights u2 hu2]
  · unfold closeRowTiles rowContentWidth
    rw [pass3_length, pass2_length, hlen1, sumWidths_pass3, pass2_length, hlen1]
    field_simp
    ring

/-- Witness for C4 (amended): in the 1000px/10px/three-300x300 scenario the
closed row has all heights equal, and the total content width comes out at
the amended formula's value 22960/23. -/
theorem closeRow_spec_witness :
    (∀ t1 ∈ closeRowTiles 10 1000 [tile300, tile300, tile300],
      ∀ t2 ∈ closeRowTiles 10 1000 [tile300, tile300, tile300], t1.h = t2.h) ∧
    rowContentWidth 10 (closeRowTiles 10 1000 [tile300, tile300, tile300]) =
      1000 + 10 * ((3 : ℚ) - 1) *
        (1 - 1000 / (10 * ((3 : ℚ) - 1) +
          sumWidths (pass2 (pass1 10 1000 [tile300, tile300, tile300])))) := by
  have hr : List.range 3 = [0, 1, 2] := rfl
  have hsum : sumWidths (pass2 (pass1 10 1000 [tile300, tile300, tile300])) = 900 := by
    norm_num [pass2, pass1, pass1Step, maxHeight, sumWidths, tile300, hr,
      List.foldl, min_def, max_def]
  have h := closeRow_spec 10 1000 [tile300, tile300, tile300]
    (by norm_num [posTiles, tile300])
    (by norm_num [rowContentWidth, sumWidths, tile300])
    (by rw [hsum]; norm_num)
  refine ⟨h.1, ?_⟩
  rw [h.2]
  norm_num

/-- C8: for an item on a loaded page whose metadata reports page count `n`
(with `n ≥ 1`; metadata never reports 0 pages) and whose expansion is
enabled, flattening substitutes the item's single id (stored as its
first-page id) by exactly the `n` sub-page ids in page order `0..n-1`,
they appear contiguously in `allMediaIds`, and every one of them is
attributed the item's source page number in the id-to-page map. -/
theorem expansion_flattening (env : ExpansionEnv) (idl : IdList) (p : Int)
    (m : MediaId) (n : Nat)
    (hmem : m ∈ idl.mediaIdsByPage p) (hp : p ∈ intRange idl.minPage idl.maxPage)
    (hex : env.isExpanded m = true) (hn : env.pageCount m = some n) (h1 : 1 ≤ n)
    (hm0 : m.page = 0)
    (allMediaIds : List MediaId) (pages : List (MediaId × Int))
    (hok : getDataSourceMediaIds env idl = Except.ok (allMediaIds, pages)) :
    flattenOne env m = (List.range n).map (fun j => (⟨m.base, j⟩ : MediaId)) ∧
    (∃ pre suf, allMediaIds =
      pre ++ (List.range n).map (fun j => (⟨m.base, j⟩ : MediaId)) ++ suf) ∧
    (∀ j, j < n → pageLookup pages ⟨m.base, j⟩ = some p) := by
  have hflat : flattenOne env m =
      (List.range n).map (fun j => (⟨m.base, j⟩ : MediaId)) := by
    have hGE : getExpandedPages env m =
        (if n ≤ 1 then none
         else some ((List.range n).map (fun j => (⟨m.base, j⟩ : MediaId)))) := by
      simp [getExpandedPages, hex, hn]
    unfold flattenOne
    rw [hGE]
    by_cases hle : n ≤ 1
    · have hn1 : n = 1 := by omega
      subst hn1
      rw [if_pos (le_refl 1)]
      cases m with
      | mk b pg =>
        simp only at hm0
        subst hm0
        rfl
    · rw [if_neg hle]
  -- unpack the success of getDataSourceMediaIds
  have hentry : allMediaIds =
      ((intRange idl.minPage idl.maxPage).flatMap (fun page =>
        (idl.mediaIdsByPage page).flatMap (fun mediaId =>
          (flattenOne env mediaId).map (fun pageMediaId => (pageMediaId, page))))).map
            (·.1) ∧
      pages =
      (intRange idl.minPage idl.maxPage).flatMap (fun page =>
        (idl.mediaIdsByPage page).flatMap (fun mediaId =>
          (flattenOne env mediaId).map (fun pageMediaId => (pageMediaId, page)))) ∧
      allMediaIds.dedup.length = allMediaIds.length := by
    unfold getDataSourceMediaIds at hok
    simp only [] at hok
    split at hok
    · rename_i hcond
      injection hok with hok
      injection hok with h1' h2'
      exact ⟨h1'.symm, h2'.symm, by rw [← h1']; exact hcond⟩
    · exact absurd hok (by simp)
  obtain ⟨hall, hpages, hdedup⟩ := hentry
  obtain ⟨a, b, hpr⟩ := List.append_of_mem hp
  obtain ⟨c, d, hmr⟩ := List.append_of_mem hmem
  have hsplit : (intRange idl.minPage idl.maxPage).flatMap (fun page =>
      (idl.mediaIdsByPage page).flatMap (fun mediaId =>
        (flattenOne env mediaId).map (fun pageMediaId => (pageMediaId, page)))) =
      (a.flatMap (fun page =>
        (idl.mediaIdsByPage page).flatMap (fun mediaId =>
          (flattenOne env mediaId).map (fun pageMediaId => (pageMediaId, page)))) ++
       c.flatMap (fun mediaId =>
          (flattenOne env mediaId).map (fun pageMediaId => (pageMediaId, p)))) ++
      ((List.range n).map (fun j => ((⟨m.base, j⟩ : MediaId), p))) ++
      (d.flatMap (fun mediaId =>
          (flattenOne env mediaId).map (fun pageMediaId => (pageMediaId, p))) ++
       b.flatMap (fun page =>
        (idl.mediaIdsByPage page).flatMap (fun mediaId =>
          (flattenOne env mediaId).map (fun pageMediaId => (pageMediaId, page))))) := by
    rw [hpr, List.flatMap_append, List.flatMap_cons, hmr, List.flatMap_append,
      List.flatMap_cons, hflat, List.map_map]
    simp [List.append_assoc]
  constructor
  · exact hflat
  constructor
  · refine ⟨((a.flatMap (fun page =>
        (idl.mediaIdsByPage page).flatMap (fun mediaId =>
          (flattenOne env mediaId).map (fun pageMediaId => (pageMediaId, page)))) ++
       c.flatMap (fun mediaId =>
          (flattenOne env mediaId).map (fun pageMediaId => (pageMediaId, p))))).map (·.1),
      ((d.flatMap (fun mediaId =>
          (flattenOne env mediaId).map (fun pageMediaId => (pageMediaId, p))) ++
       b.flatMap (fun page =>
        (idl.mediaIdsByPage page).flatMap (fun mediaId =>
          (flattenOne env mediaId).map (fun pageMediaId => (pageMediaId, page)))))).map (·.1),
      ?_⟩
    rw [hall, hsplit]
    simp [List.map_map]
  · intro j hj
    have hmementry : ((⟨m.base, j⟩ : MediaId), p) ∈ pages := by
      rw [hpages, hsplit]
      refine List.mem_append.mpr (Or.inl (List.mem_append.mpr (Or.inr ?_)))
      exact List.mem_map.mpr ⟨j, List.mem_range.mpr hj, rfl⟩
    have hnd : (pages.map (·.1)).Nodup := by
      have := (dedup_length_eq_iff_nodup allMediaIds).mp hdedup
      rw [hall, hpages] at *
      exact this
    unfold pageLookup
    rw [find?_key_unique pages hnd ⟨m.base, j⟩ p hmementry]
    rfl

/-- Witness for C8: item 4 on page 2 with page count 3 and expansion
enabled flattens to its three page ids in order, appearing contiguously
and all attributed to page 2. -/
theorem expansion_flattening_witness :
    flattenOne expEnvC8 ⟨4, 0⟩ =
      (List.range 3).map (fun j => (⟨4, j⟩ : MediaId)) ∧
    (∃ pre suf,
      [(⟨4, 0⟩ : MediaId), ⟨4, 1⟩, ⟨4, 2⟩, ⟨9, 0⟩, ⟨7, 0⟩] =
        pre ++ (List.range 3).map (fun j => (⟨4, j⟩ : MediaId)) ++ suf) ∧
    (∀ j, j < 3 →
      pageLookup [((⟨4, 0⟩ : MediaId), (2 : Int)), (⟨4, 1⟩, 2), (⟨4, 2⟩, 2),
        (⟨9, 0⟩, 2), (⟨7, 0⟩, 3)] ⟨4, j⟩ = some 2) :=
  expansion_flattening expEnvC8 idlC8 2 ⟨4, 0⟩ 3
    (by decide) (by decide) (by decide) (by decide) (by decide) (by decide)
    [⟨4, 0⟩, ⟨4, 1⟩, ⟨4, 2⟩, ⟨9, 0⟩, ⟨7, 0⟩]
    [(⟨4, 0⟩, 2), (⟨4, 1⟩, 2), (⟨4, 2⟩, 2), (⟨9, 0⟩, 2), (⟨7, 0⟩, 3)]
    rfl

/-- C1: on a non-empty id list `getMediaIdsToDisplay` returns a clamped
range with `0 ≤ startIdx ≤ endIdx ≤ allMediaIds.length - 1`, and the ids
materialized by any successful `refreshImages` — from any prior state —
are a contiguous infix of `allMediaIds` with no duplicates. -/
theorem window_contiguity :
    (∀ (sizing : SizingStyle) (scrollHeight : Nat) (ios : Bool)
        (thumbs : List ThumbEntry) (allMediaIds : List MediaId)
        (targetMediaId : Option MediaId), allMediaIds ≠ [] →
      0 ≤ (getMediaIdsToDisplay sizing scrollHeight ios thumbs allMediaIds
          targetMediaId).1 ∧
        (getMediaIdsToDisplay sizing scrollHeight ios thumbs allMediaIds
          targetMediaId).1 ≤
          (getMediaIdsToDisplay sizing scrollHeight ios thumbs allMediaIds
            targetMediaId).2 ∧
        (getMediaIdsToDisplay sizing scrollHeight ios thumbs allMediaIds
          targetMediaId).2 ≤ (allMediaIds.length : Int) - 1) ∧
    (∀ (env : RefreshEnv) (idl : IdList) (st : SearchState) (args : RefreshArgs)
        (allMediaIds : List MediaId) (pagesM : List (MediaId × Int)),
      getDataSourceMediaIds env.expansion idl = Except.ok (allMediaIds, pagesM) →
      (refreshImages env idl st args).ok = true ∧
        ((refreshImages env idl st args).st.thumbs.map (·.mediaId)) <:+:
          allMediaIds ∧
        ((refreshImages env idl st args).st.thumbs.map (·.mediaId)).Nodup) := by
  constructor
  · exact getMediaIdsToDisplay_bounds
  · intro env idl st args allMediaIds pagesM hok
    have hnodup := getDataSourceMediaIds_ok_nodup env.expansion idl allMediaIds
      pagesM hok
    rw [refreshImages_ok_unfold env idl st args allMediaIds pagesM hok]
    cases hp : effectivePurge env st args with
    | true =>
      rw [if_pos rfl]
      obtain ⟨hok2, hids⟩ := refreshImagesCore_ids env st args allMediaIds pagesM
        [] [] st.thumbs.length
      refine ⟨hok2, ?_, ?_⟩
      · rw [hids]; exact jsSlice_contiguous _ _ _
      · rw [hids]; exact hnodup.sublist (jsSlice_contiguous _ _ _).sublist
    | false =>
      rw [if_neg Bool.false_ne_true]
      obtain ⟨hok2, hids⟩ := refreshImagesCore_ids env st args allMediaIds pagesM
        st.thumbs st.rows 0
      refine ⟨hok2, ?_, ?_⟩
      · rw [hids]; exact jsSlice_contiguous _ _ _
      · rw [hids]; exact hnodup.sublist (jsSlice_contiguous _ _ _).sublist

set_option maxRecDepth 40000 in
/-- Witness for C1: the 500-id fixture satisfies the range bounds, and a
refresh of the ten-id data source from an empty view yields a
duplicate-free contiguous infix of the ten ids. -/
theorem window_contiguity_witness :
    (0 ≤ (getMediaIdsToDisplay sizingC6 800 false [] allIds500 none).1 ∧
      (getMediaIdsToDisplay sizingC6 800 false [] allIds500 none).1 ≤
        (getMediaIdsToDisplay sizingC6 800 false [] allIds500 none).2 ∧
      (getMediaIdsToDisplay sizingC6 800 false [] allIds500 none).2 ≤
        (allIds500.length : Int) - 1) ∧
    ((refreshImages envPlain idlTen stEmpty ⟨none, false⟩).ok = true ∧
      ((refreshImages envPlain idlTen stEmpty ⟨none, false⟩).st.thumbs.map
        (·.mediaId)) <:+: allIds10 ∧
      ((refreshImages envPlain idlTen stEmpty ⟨none, false⟩).st.thumbs.map
        (·.mediaId)).Nodup) :=
  ⟨window_contiguity.1 sizingC6 800 false [] allIds500 none (by decide),
   window_contiguity.2 envPlain idlTen stEmpty ⟨none, false⟩ allIds10 pages10 rfl⟩

/-- Counterexample for C2: refreshing a duplicated data source with
`purge := true` aborts with the fatal duplicate error, but the previously
materialized thumb is NOT left untouched — the purge clears `this.thumbs`
before the duplicate check runs, so the element is destroyed. -/
theorem duplicate_purge_clears_thumbs :
    getDataSourceMediaIds envPlain.expansion idlDup = Except.error () ∧
    (refreshImages envPlain idlDup stOneThumb ⟨none, true⟩).ok = false ∧
    (refreshImages envPlain idlDup stOneThumb ⟨none, true⟩).st.thumbs = [] ∧
    (refreshImages envPlain idlDup stOneThumb ⟨none, true⟩).destroyed = 1 ∧
    stOneThumb.thumbs ≠ [] :=
  ⟨rfl, rfl, rfl, rfl, by decide⟩

/-- C2 (amended): a duplicate id in the flattened list always makes the
refresh abort with the fatal error before any element is created; the
previously materialized elements are left untouched exactly when the
refresh is not a purge (on a purge they are cleared before the check). -/
theorem duplicate_refresh_aborts (env : RefreshEnv) (idl : IdList)
    (st : SearchState) (args : RefreshArgs)
    (herr : getDataSourceMediaIds env.expansion idl = Except.error ()) :
    (refreshImages env idl st args).ok = false ∧
    (refreshImages env idl st args).created = 0 ∧
    (effectivePurge env st args = false →
      (refreshImages env idl st args).st.thumbs = st.thumbs ∧
      (refreshImages env idl st args).st.rows = st.rows ∧
      (refreshImages env idl st args).destroyed = 0) := by
  have hunf : refreshImages env idl st args =
      { ok := false,
        st := { thumbs := if effectivePurge env st args then [] else st.thumbs,
                rows := if effectivePurge env st args then [] else st.rows,
                sizingStyle := some env.sizing },
        created := 0,
        destroyed :=
          if effectivePurge env st args then st.thumbs.length else 0 } := by
    cases hp : effectivePurge env st args with
    | false =>
      unfold refreshImages
      rw [hp, herr]
      rfl
    | true =>
      unfold refreshImages
      rw [hp, herr]
      rfl
  rw [hunf]
  refine ⟨rfl, rfl, ?_⟩
  intro hp
  rw [hp]
  simp

/-- Witness for C2's amended theorem: the duplicated data source with
`purge := false` and no cached sizing style aborts and leaves the single
materialized thumb and the rows untouched, destroying nothing. -/
theorem duplicate_refresh_aborts_witness :
    (refreshImages envPlain idlDup stOneThumb ⟨none, false⟩).ok = false ∧
    (refreshImages envPlain idlDup stOneThumb ⟨none, false⟩).created = 0 ∧
    ((refreshImages envPlain idlDup stOneThumb ⟨none, false⟩).st.thumbs =
        stOneThumb.thumbs ∧
      (refreshImages envPlain idlDup stOneThumb ⟨none, false⟩).st.rows =
        stOneThumb.rows ∧
      (refreshImages envPlain idlDup stOneThumb ⟨none, false⟩).destroyed = 0) := by
  obtain ⟨h1, h2, h3⟩ :=
    duplicate_refresh_aborts envPlain idlDup stOneThumb ⟨none, false⟩ rfl
  exact ⟨h1, h2, h3 rfl⟩

/-- C3: when the data source, sizing style and effective target are
unchanged — so the freshly computed display window equals the currently
materialized id sequence — a second `refreshImages` is a no-op incremental
update: it creates nothing, destroys nothing, and leaves the thumbs, rows
and cached sizing style exactly as they were. -/
theorem refresh_idempotent (env : RefreshEnv) (idl : IdList) (st : SearchState)
    (args : RefreshArgs) (allMediaIds : List MediaId)
    (pagesM : List (MediaId × Int))
    (hok : getDataSourceMediaIds env.expansion idl =
      Except.ok (allMediaIds, pagesM))
    (hpurge : effectivePurge env st args = false)
    (hsz : st.sizingStyle = some env.sizing)
    (hne : st.thumbs ≠ [])
    (H : jsSlice allMediaIds
        (getMediaIdsToDisplay env.sizing env.scrollHeight env.ios st.thumbs
          allMediaIds (remapTarget allMediaIds (requestedTarget env st args))).1
        ((getMediaIdsToDisplay env.sizing env.scrollHeight env.ios st.thumbs
          allMediaIds
          (remapTarget allMediaIds (requestedTarget env st args))).2 + 1) =
      st.thumbs.map (·.mediaId)) :
    refreshImages env idl st args =
      { ok := true, st := st, created := 0, destroyed := 0 } := by
  have hnodup := getDataSourceMediaIds_ok_nodup env.expansion idl allMediaIds
    pagesM hok
  have hcurnodup : (st.thumbs.map (·.mediaId)).Nodup := by
    rw [← H]
    exact hnodup.sublist (jsSlice_contiguous _ _ _).sublist
  have hcurne : st.thumbs.map (·.mediaId) ≠ [] := by
    simpa using hne
  obtain ⟨c0, cur', hdecomp⟩ :
      ∃ c0 cur', st.thumbs.map (·.mediaId) = c0 :: cur' := by
    cases hmap : st.thumbs.map (·.mediaId) with
    | nil => exact absurd hmap hcurne
    | cons a l => exact ⟨a, l, rfl⟩
  have hlen1 : 1 ≤ (st.thumbs.map (·.mediaId)).length := by
    rw [hdecomp]; simp
  have hhead : jsIndexOfOpt (st.thumbs.map (·.mediaId))
      ((st.thumbs.map (·.mediaId)).head?) = 0 := by
    rw [hdecomp]
    show jsIndexOf (c0 :: cur') c0 = 0
    exact jsIndexOf_head _ _ rfl
  have hcl : (st.thumbs.map (·.mediaId)).getLast? =
      some ((c0 :: cur').getLast (by simp)) := by
    rw [hdecomp]
    exact List.getLast?_eq_getLast _ (by simp)
  have hlast : jsIndexOfOpt (st.thumbs.map (·.mediaId))
      ((st.thumbs.map (·.mediaId)).getLast?) =
      ((st.thumbs.map (·.mediaId)).length : Int) - 1 := by
    rw [hcl]
    show jsIndexOf (st.thumbs.map (·.mediaId)) _ = _
    apply jsIndexOf_getLast_nodup _ _ hcurnodup
    rw [hdecomp]
    exact List.getLast?_eq_getLast _ (by simp)
  have hcond : jsIndexOfOpt (st.thumbs.map (·.mediaId))
        ((st.thumbs.map (·.mediaId)).head?) ≠ -1 ∧
      jsIndexOfOpt (st.thumbs.map (·.mediaId))
        ((st.thumbs.map (·.mediaId)).getLast?) ≠ -1 ∧
      jsSlice (st.thumbs.map (·.mediaId))
        (jsIndexOfOpt (st.thumbs.map (·.mediaId))
          ((st.thumbs.map (·.mediaId)).head?))
        (jsIndexOfOpt (st.thumbs.map (·.mediaId))
          ((st.thumbs.map (·.mediaId)).getLast?) + 1) =
      st.thumbs.map (·.mediaId) := by
    refine ⟨by rw [hhead]; decide, by rw [hlast]; omega, ?_⟩
    rw [hhead, hlast]
    have h2 : ((st.thumbs.map (·.mediaId)).length : Int) - 1 + 1 =
        ((st.thumbs.map (·.mediaId)).length : Int) := by ring
    rw [h2]
    exact jsSlice_all _
  have happ : applyWindow env pagesM (st.thumbs.map (·.mediaId)) st.thumbs
      st.rows
      (jsIndexOfOpt (st.thumbs.map (·.mediaId))
        ((st.thumbs.map (·.mediaId)).head?))
      (jsIndexOfOpt (st.thumbs.map (·.mediaId))
        ((st.thumbs.map (·.mediaId)).getLast?)) =
      (st.thumbs, st.rows, 0) := by
    rw [hhead, hlast]
    have hd : (((st.thumbs.map (·.mediaId)).length : Int) - 1 + 1).toNat =
        (st.thumbs.map (·.mediaId)).length := by omega
    simp only [applyWindow]
    rw [hd, List.drop_length, Int.toNat_zero, List.take_zero,
      List.reverse_nil]
    rfl
  have hst : (⟨st.thumbs, st.rows, some env.sizing⟩ : SearchState) = st := by
    rw [← hsz]
  rw [refreshImages_ok_unfold env idl st args allMediaIds pagesM hok, hpurge,
    if_neg Bool.false_ne_true]
  unfold refreshImagesCore
  simp only []
  rw [H, if_pos hcond, happ]
  show (⟨true, ⟨st.thumbs, st.rows, some env.sizing⟩, 0, 0⟩ : RefreshResult) =
    { ok := true, st := st, created := 0, destroyed := 0 }
  rw [hst]

/-- Witness for C3: refreshing the ten-id data source again over the state
a completed refresh left behind changes nothing and creates and destroys
zero elements. -/
theorem refresh_idempotent_witness :
    refreshImages envPlain idlTen stTen ⟨none, false⟩ =
      { ok := true, st := stTen, created := 0, destroyed := 0 } :=
  refresh_idempotent envPlain idlTen stTen ⟨none, false⟩ allIds10 pages10
    rfl rfl rfl (by decide) rfl

end SearchViewModel
